import Mathlib

/-!
Shallow embedding of RAMCloud's CoordinatorServerList
(src/CoordinatorServerList.cc): slot table, entry model, change log,
the public mutators, and the predicates used by the background updater,
together with proofs about them.
-/

namespace RAMCloud

/-- A 64-bit composite server identifier: a slot index and a per-slot
generation number, both 32-bit in the source (ServerId). -/
structure ServerId where
  indexNumber : Nat
  generationNumber : Nat
  deriving DecidableEq

/-- Status values of a server list entry (ServerStatus). -/
inductive ServerStatus where
  | UP
  | CRASHED
  | DOWN
  deriving DecidableEq

/-- Service mask over the fixed service universe of WireFormat
(MASTER_SERVICE, BACKUP_SERVICE, MEMBERSHIP_SERVICE, PING_SERVICE). -/
structure ServiceMask where
  hasMaster : Bool
  hasBackup : Bool
  hasMembership : Bool
  hasPing : Bool
  deriving DecidableEq

/-- The empty service mask, ServiceMask(). -/
def ServiceMask.empty : ServiceMask := ⟨false, false, false, false⟩

/-- Coordinator-side per-server record: CoordinatorServerList::Entry
together with the ServerDetails fields it inherits.  LogCabin entry ids
are opaque handles, modelled as naturals. -/
structure Entry where
  serverId : ServerId
  serviceLocator : String
  services : ServiceMask
  expectedReadMBytesPerSec : Nat
  status : ServerStatus
  minOpenSegmentId : Nat
  replicationId : Nat
  serverListVersion : Nat
  isBeingUpdated : Bool
  serverInfoLogId : Nat
  serverUpdateLogId : Nat
  deriving DecidableEq

/-- ServerDetails::isMaster: the entry offers the master service. -/
def Entry.isMaster (e : Entry) : Bool := e.services.hasMaster

/-- ServerDetails::isBackup: the entry offers the backup service. -/
def Entry.isBackup (e : Entry) : Bool := e.services.hasBackup

/-- Entry constructor Entry(serverId, serviceLocator, services): status UP,
read speed 0, every auxiliary field zeroed (CoordinatorServerList.cc,
Entry::Entry three-argument form). -/
def Entry.ofServer (serverId : ServerId) (serviceLocator : String)
    (services : ServiceMask) : Entry :=
  ⟨serverId, serviceLocator, services, 0, ServerStatus.UP, 0, 0, 0, false, 0, 0⟩

/-- Subscriber (tracker) event kinds (ServerChangeEvent). -/
inductive ServerChangeEvent where
  | SERVER_ADDED
  | SERVER_CRASHED
  | SERVER_REMOVED
  deriving DecidableEq

/-- One wire-format change record (ProtoBuf::ServerList_Entry) as filled
by Entry::serialize. -/
structure ProtoEntry where
  services : ServiceMask
  server_id : ServerId
  service_locator : String
  status : ServerStatus
  expected_read_mbytes_per_sec : Nat
  deriving DecidableEq

/-- Entry::serialize: copies the identity fields; the read speed is the
recorded value for backups and 0 otherwise (the field is always set). -/
def Entry.serializeEntry (e : Entry) : ProtoEntry :=
  ⟨e.services, e.serverId, e.serviceLocator, e.status,
    if e.isBackup then e.expectedReadMBytesPerSec else 0⟩

/-- Payload type tags (ProtoBuf::ServerList_Type). -/
inductive ProtoListType where
  | FULL_LIST
  | UPDATE
  deriving DecidableEq

/-- A serialized server list payload (ProtoBuf::ServerList): entry
records plus version number and type tag. -/
structure ProtoServerList where
  server : List ProtoEntry
  version_number : Nat
  type : ProtoListType
  deriving DecidableEq

/-- One slot of the server table.  Modelled from the spec: a slot pairs an
optional entry with the slot's next generation number, which starts at 0
(the class declaration lives in the header, outside src/; the spec's §3
Slot model and scenario 2, first issued id (1,0), fix the initial value). -/
structure GenerationNumberEntryPair where
  nextGenerationNumber : Nat
  entry : Option Entry
  deriving DecidableEq

/-- A freshly constructed (default) slot. -/
def emptyPair : GenerationNumberEntryPair := ⟨0, none⟩

/-- Scan-state of the updater (struct LastScan).  Modelled from the spec:
all three fields start zeroed / false. -/
structure LastScan where
  searchIndex : Nat
  minVersion : Nat
  noUpdatesFound : Bool
  deriving DecidableEq

/-- State of a CoordinatorServerList: the slot table, the cached master
and backup counts, the committed version (inherited field version,
starting at 0 per the spec's change-log model), the pending update
batch, the committed-batch history, and the updater scan state. -/
structure CoordinatorServerList where
  serverList : List GenerationNumberEntryPair
  numberOfMasters : Nat
  numberOfBackups : Nat
  version : Nat
  update : List ProtoEntry
  updates : List ProtoServerList
  lastScan : LastScan
  deriving DecidableEq

/-- Abbreviation for the state record. -/
abbrev CSL := CoordinatorServerList

/-- The initial, empty server list state. -/
def CSL.empty : CSL := ⟨[], 0, 0, 0, [], [], ⟨0, 0, false⟩⟩

/-- Reduction modulo 2^32, for the uint32_t generation counters. -/
def u32Mod (n : Nat) : Nat := n % 4294967296

/-- Read the slot at an index, yielding a default slot out of range. -/
def getPair (l : List GenerationNumberEntryPair) (i : Nat) :
    GenerationNumberEntryPair :=
  l.getD i emptyPair

/-- Grow the slot table to at least n slots (vector::resize; only ever
called here to grow). -/
def resizeTo (l : List GenerationNumberEntryPair) (n : Nat) :
    List GenerationNumberEntryPair :=
  l ++ List.replicate (n - l.length) emptyPair

/-- Replace the entry stored at a slot, keeping its generation counter. -/
def setEntryAt (l : List GenerationNumberEntryPair) (i : Nat)
    (e : Option Entry) : List GenerationNumberEntryPair :=
  l.set i ⟨(getPair l i).nextGenerationNumber, e⟩

/-- Lookup underlying getReferenceFromServerId and iget(ServerId): the
slot at the id's index must be occupied by an entry whose full id equals
the argument. -/
def CSL.lookupEntry (s : CSL) (serverId : ServerId) : Option Entry :=
  match (getPair s.serverList serverId.indexNumber).entry with
  | none => none
  | some e => if e.serverId = serverId then some e else none

/-- CoordinatorServerList::getReferenceFromServerId: yields the entry, or
throws ServerListException (modelled as the error branch) when the id is
not in the list. -/
def CSL.getReferenceFromServerId (s : CSL) (serverId : ServerId) :
    Except Unit Entry :=
  match s.lookupEntry serverId with
  | some e => Except.ok e
  | none => Except.error ()

/-- CoordinatorServerList::at(size_t) (and operator[]): throws for an
index beyond the array length, else the (possibly empty) slot entry. -/
def CSL.atIndex (s : CSL) (index : Nat) : Except Unit (Option Entry) :=
  if s.serverList.length ≤ index then Except.error ()
  else Except.ok (getPair s.serverList index).entry

/-- Internal add(lock, ...): resize the table if needed, overwrite the
slot's generation counter with generation+1, install a fresh UP entry,
bump the cached counts, record the read speed for backups, append one
change record to the pending update, and enqueue SERVER_ADDED at every
tracker.  Returns the new state with the tracker event sequence. -/
def CSL.addL (s : CSL) (serverId : ServerId) (serviceLocator : String)
    (serviceMask : ServiceMask) (readSpeed : Nat) :
    CSL × List (Entry × ServerChangeEvent) :=
  let index := serverId.indexNumber
  let l := resizeTo s.serverList (index + 1)
  let entry0 := Entry.ofServer serverId serviceLocator serviceMask
  let entry := if serviceMask.hasBackup then
      { entry0 with expectedReadMBytesPerSec := readSpeed } else entry0
  let masters := if serviceMask.hasMaster then
      s.numberOfMasters + 1 else s.numberOfMasters
  let backups := if serviceMask.hasBackup then
      s.numberOfBackups + 1 else s.numberOfBackups
  ({ s with
      serverList :=
        l.set index ⟨u32Mod (serverId.generationNumber + 1), some entry⟩,
      numberOfMasters := masters,
      numberOfBackups := backups,
      update := s.update ++ [entry.serializeEntry] },
    [(entry, ServerChangeEvent.SERVER_ADDED)])

/-- Internal crashed(lock, ...): throws when the id is absent; a no-op on
an already CRASHED entry; otherwise decrements the counts per the
entry's services, sets the status to CRASHED, appends a change record to
the pending update, and enqueues SERVER_CRASHED at every tracker. -/
def CSL.crashedL (s : CSL) (serverId : ServerId) :
    Except Unit (CSL × List (Entry × ServerChangeEvent)) :=
  match s.lookupEntry serverId with
  | none => Except.error ()
  | some entry =>
    if entry.status = ServerStatus.CRASHED then Except.ok (s, [])
    else
      let masters := if entry.isMaster then
          s.numberOfMasters - 1 else s.numberOfMasters
      let backups := if entry.isBackup then
          s.numberOfBackups - 1 else s.numberOfBackups
      let entry' := { entry with status := ServerStatus.CRASHED }
      Except.ok
        ({ s with
            serverList :=
              setEntryAt s.serverList serverId.indexNumber (some entry'),
            numberOfMasters := masters,
            numberOfBackups := backups,
            update := s.update ++ [entry'.serializeEntry] },
          [(entry', ServerChangeEvent.SERVER_CRASHED)])

/-- Internal remove(lock, ...): throws when the id is absent; performs
crashed() (which is a no-op if the entry is already CRASHED), then sets
the status to DOWN, appends a second change record, destroys the entry,
and enqueues SERVER_REMOVED with a copy taken before destruction. -/
def CSL.removeL (s : CSL) (serverId : ServerId) :
    Except Unit (CSL × List (Entry × ServerChangeEvent)) :=
  match s.lookupEntry serverId with
  | none => Except.error ()
  | some _ =>
    match s.crashedL serverId with
    | Except.error e => Except.error e
    | Except.ok (s1, ev1) =>
      match s1.lookupEntry serverId with
      | none => Except.error ()
      | some entry =>
        let entry' := { entry with status := ServerStatus.DOWN }
        Except.ok
          ({ s1 with
              serverList :=
                setEntryAt s1.serverList serverId.indexNumber none,
              update := s1.update ++ [entry'.serializeEntry] },
            ev1 ++ [(entry', ServerChangeEvent.SERVER_REMOVED)])

/-- CoordinatorServerList::commitUpdate: a silent no-op when the pending
update holds no records; otherwise bump the version, tag the batch with
it, push it at the back of the history, clear the no-updates-found
short-circuit, and clear the pending update. -/
def CSL.commitUpdate (s : CSL) : CSL :=
  if s.update.length = 0 then s
  else
    { s with
        version := s.version + 1,
        updates := s.updates ++
          [⟨s.update, s.version + 1, ProtoListType.UPDATE⟩],
        update := [],
        lastScan := { s.lastScan with noUpdatesFound := false } }

/-- Public add: internal add under the lock, then commitUpdate. -/
def CSL.add (s : CSL) (serverId : ServerId) (serviceLocator : String)
    (serviceMask : ServiceMask) (readSpeed : Nat) :
    CSL × List (Entry × ServerChangeEvent) :=
  let p := s.addL serverId serviceLocator serviceMask readSpeed
  (p.1.commitUpdate, p.2)

/-- Public crashed: internal crashed under the lock, then commitUpdate;
the exception propagates before any commit happens. -/
def CSL.crashed (s : CSL) (serverId : ServerId) :
    Except Unit (CSL × List (Entry × ServerChangeEvent)) :=
  (s.crashedL serverId).map (fun p => (p.1.commitUpdate, p.2))

/-- Public remove: internal remove under the lock, then commitUpdate;
the exception propagates before any commit happens. -/
def CSL.remove (s : CSL) (serverId : ServerId) :
    Except Unit (CSL × List (Entry × ServerChangeEvent)) :=
  (s.removeL serverId).map (fun p => (p.1.commitUpdate, p.2))

/-- Fuelled scan loop of firstFreeIndex (the fuel only bounds the
recursion; firstFreeFrom supplies enough of it for a full scan). -/
def firstFreeFromAux (l : List GenerationNumberEntryPair) :
    Nat → Nat → Nat
  | 0, i => i
  | fuel + 1, i =>
    if h : i < l.length then
      if (l.get ⟨i, h⟩).entry = none then i
      else firstFreeFromAux l fuel (i + 1)
    else i

/-- Scan loop of firstFreeIndex: the first index at or after i whose slot
holds no entry, or the list length (capped below by i) if none does. -/
def firstFreeFrom (l : List GenerationNumberEntryPair) (i : Nat) : Nat :=
  firstFreeFromAux l (l.length - i) i

/-- CoordinatorServerList::generateUniqueId: take the first free index
(scanning from 1, growing the table if needed; firstFreeIndex), build the
id from the slot's next generation number, increment that counter, and
install a placeholder entry with empty locator and empty service mask. -/
def CSL.generateUniqueId (s : CSL) : ServerId × CSL :=
  let index := firstFreeFrom s.serverList 1
  let l := resizeTo s.serverList (index + 1)
  let pair := getPair l index
  let id : ServerId := ⟨index, pair.nextGenerationNumber⟩
  (id, { s with
      serverList := l.set index
        ⟨u32Mod (pair.nextGenerationNumber + 1),
          some (Entry.ofServer id "" ServiceMask.empty)⟩ })

/-- CoordinatorServerList::setMinOpenSegmentId: monotonic max; a write
that would lower the stored value is silently ignored. -/
def CSL.setMinOpenSegmentId (s : CSL) (serverId : ServerId)
    (segmentId : Nat) : Except Unit CSL :=
  match s.lookupEntry serverId with
  | none => Except.error ()
  | some entry =>
    if entry.minOpenSegmentId < segmentId then
      Except.ok { s with
        serverList := setEntryAt s.serverList serverId.indexNumber
          (some { entry with minOpenSegmentId := segmentId }) }
    else Except.ok s

/-- CoordinatorServerList::setReplicationId: unconditional write. -/
def CSL.setReplicationId (s : CSL) (serverId : ServerId)
    (replicationId : Nat) : Except Unit CSL :=
  match s.lookupEntry serverId with
  | none => Except.error ()
  | some entry =>
    Except.ok { s with
      serverList := setEntryAt s.serverList serverId.indexNumber
        (some { entry with replicationId := replicationId }) }

/-- CoordinatorServerList::addServerInfoLogId: unconditional write. -/
def CSL.addServerInfoLogId (s : CSL) (serverId : ServerId)
    (entryId : Nat) : Except Unit CSL :=
  match s.lookupEntry serverId with
  | none => Except.error ()
  | some entry =>
    Except.ok { s with
      serverList := setEntryAt s.serverList serverId.indexNumber
        (some { entry with serverInfoLogId := entryId }) }

/-- CoordinatorServerList::getServerInfoLogId. -/
def CSL.getServerInfoLogId (s : CSL) (serverId : ServerId) :
    Except Unit Nat :=
  match s.lookupEntry serverId with
  | none => Except.error ()
  | some entry => Except.ok entry.serverInfoLogId

/-- CoordinatorServerList::addServerUpdateLogId: unconditional write. -/
def CSL.addServerUpdateLogId (s : CSL) (serverId : ServerId)
    (entryId : Nat) : Except Unit CSL :=
  match s.lookupEntry serverId with
  | none => Except.error ()
  | some entry =>
    Except.ok { s with
      serverList := setEntryAt s.serverList serverId.indexNumber
        (some { entry with serverUpdateLogId := entryId }) }

/-- CoordinatorServerList::getServerUpdateLogId. -/
def CSL.getServerUpdateLogId (s : CSL) (serverId : ServerId) :
    Except Unit Nat :=
  match s.lookupEntry serverId with
  | none => Except.error ()
  | some entry => Except.ok entry.serverUpdateLogId

/-- CoordinatorServerList::masterCount: the cached count. -/
def CSL.masterCount (s : CSL) : Nat := s.numberOfMasters

/-- CoordinatorServerList::backupCount: the cached count. -/
def CSL.backupCount (s : CSL) : Nat := s.numberOfBackups

/-- Per-slot filter of serialize(lock, protoBuf, services): an occupied
slot whose entry offers a master or backup service that the caller's
filter also names contributes one record. -/
def serFilter (services : ServiceMask) (p : GenerationNumberEntryPair) :
    Option ProtoEntry :=
  match p.entry with
  | none => none
  | some entry =>
    if (entry.services.hasMaster && services.hasMaster)
        || (entry.services.hasBackup && services.hasBackup) then
      some entry.serializeEntry
    else none

/-- Body of serialize(lock, protoBuf, services): the filter applied
across the whole slot table, in slot order. -/
def CSL.serializeFiltered (s : CSL) (services : ServiceMask) :
    List ProtoEntry :=
  s.serverList.filterMap (serFilter services)

/-- CoordinatorServerList::serialize: the filtered records plus the
current version number, tagged FULL_LIST. -/
def CSL.serialize (s : CSL) (services : ServiceMask) : ProtoServerList :=
  ⟨s.serializeFiltered services, s.version, ProtoListType.FULL_LIST⟩

/-- CoordinatorServerList::isClusterUpToDate: every occupied slot whose
entry is UP and offers the membership service must have acknowledged the
current version and have no update in flight. -/
def CSL.isClusterUpToDate (s : CSL) : Bool :=
  s.serverList.all (fun p =>
    match p.entry with
    | none => true
    | some entry =>
      !(entry.services.hasMembership
        && decide (entry.status = ServerStatus.UP)
        && (decide (entry.serverListVersion ≠ s.version)
            || entry.isBeingUpdated)))

/-- Postcondition of sync(): the wait loop on listUpToDate exits, with
the mutex held, exactly when isClusterUpToDate holds, so sync() returns
only in states satisfying this predicate. -/
def CSL.syncReturnedIn (s : CSL) : Prop := s.isClusterUpToDate = true

/-- One public call of the CoordinatorServerList API. -/
inductive PubOp where
  | opAdd (serverId : ServerId) (serviceLocator : String)
      (serviceMask : ServiceMask) (readSpeed : Nat)
  | opCrashed (serverId : ServerId)
  | opRemove (serverId : ServerId)
  | opGenerateUniqueId
  | opSetMinOpenSegmentId (serverId : ServerId) (segmentId : Nat)
  | opSetReplicationId (serverId : ServerId) (replicationId : Nat)
  | opAddServerInfoLogId (serverId : ServerId) (entryId : Nat)
  | opAddServerUpdateLogId (serverId : ServerId) (entryId : Nat)
  deriving DecidableEq

/-- Execute one public call; a call that throws leaves the state
unchanged (every throw in the source happens before any mutation). -/
def stepOp (s : CSL) (op : PubOp) : CSL :=
  match op with
  | PubOp.opAdd id loc sm rs => (s.add id loc sm rs).1
  | PubOp.opCrashed id =>
    match s.crashed id with
    | Except.ok p => p.1
    | Except.error _ => s
  | PubOp.opRemove id =>
    match s.remove id with
    | Except.ok p => p.1
    | Except.error _ => s
  | PubOp.opGenerateUniqueId => (s.generateUniqueId).2
  | PubOp.opSetMinOpenSegmentId id v =>
    match s.setMinOpenSegmentId id v with
    | Except.ok s' => s'
    | Except.error _ => s
  | PubOp.opSetReplicationId id v =>
    match s.setReplicationId id v with
    | Except.ok s' => s'
    | Except.error _ => s
  | PubOp.opAddServerInfoLogId id v =>
    match s.addServerInfoLogId id v with
    | Except.ok s' => s'
    | Except.error _ => s
  | PubOp.opAddServerUpdateLogId id v =>
    match s.addServerUpdateLogId id v with
    | Except.ok s' => s'
    | Except.error _ => s

/-- Execute a sequence of public calls. -/
def runOps (s : CSL) (ops : List PubOp) : CSL := ops.foldl stepOp s

/-- Documented precondition of add (spec §4.A): the target slot is
absent, empty, or holds a placeholder from generateUniqueId (an entry
with the empty service mask). -/
def addPre (s : CSL) (serverId : ServerId) : Bool :=
  match (getPair s.serverList serverId.indexNumber).entry with
  | none => true
  | some entry => decide (entry.services = ServiceMask.empty)

/-- A call sequence is valid when every add respects its documented
precondition at the moment it runs. -/
def validFrom (s : CSL) : List PubOp → Bool
  | [] => true
  | op :: rest =>
    (match op with
     | PubOp.opAdd id _ _ _ => addPre s id
     | _ => true) && validFrom (stepOp s op) rest

/-- Whether a slot holds an UP entry offering the master service. -/
def upMasterP (p : GenerationNumberEntryPair) : Bool :=
  match p.entry with
  | some e => decide (e.status = ServerStatus.UP) && e.services.hasMaster
  | none => false

/-- Whether a slot holds an UP entry offering the backup service. -/
def upBackupP (p : GenerationNumberEntryPair) : Bool :=
  match p.entry with
  | some e => decide (e.status = ServerStatus.UP) && e.services.hasBackup
  | none => false

/-- Number of slots occupied by an UP entry offering the master
service. -/
def upMasterCount (l : List GenerationNumberEntryPair) : Nat :=
  l.countP upMasterP

/-- Number of slots occupied by an UP entry offering the backup
service. -/
def upBackupCount (l : List GenerationNumberEntryPair) : Nat :=
  l.countP upBackupP

/-- The cached counts agree with a full scan (spec invariant I3). -/
def countInv (s : CSL) : Prop :=
  s.numberOfMasters = upMasterCount s.serverList
    ∧ s.numberOfBackups = upBackupCount s.serverList

/-- No stored entry has status DOWN: remove destroys the entry right
after marking it DOWN, so DOWN never persists in the table. -/
def noDownInv (s : CSL) : Prop :=
  ∀ i e, (getPair s.serverList i).entry = some e →
    e.status ≠ ServerStatus.DOWN

/-- The calls whose sequences claim C1 ranges over. -/
def addOrGen : PubOp → Bool
  | PubOp.opAdd _ _ _ _ => true
  | PubOp.opGenerateUniqueId => true
  | _ => false

/-- Execute one public call, also recording any id generateUniqueId
issued. -/
def stepIssue (p : CSL × List ServerId) (op : PubOp) :
    CSL × List ServerId :=
  match op with
  | PubOp.opGenerateUniqueId =>
    let q := p.1.generateUniqueId
    (q.2, p.2 ++ [q.1])
  | _ => (stepOp p.1 op, p.2)

/-- Run a call sequence from the empty list, collecting every issued id
in order. -/
def runIssued (ops : List PubOp) : CSL × List ServerId :=
  ops.foldl stepIssue (CSL.empty, [])

/-! Generic list lemmas about getD, set, countP and filterMap. -/

theorem getD_set_self {α : Type} (l : List α) (i : Nat) (x d : α)
    (h : i < l.length) : (l.set i x).getD i d = x := by
  induction l generalizing i with
  | nil => simp at h
  | cons a t ih =>
    cases i with
    | zero => rfl
    | succ n =>
      simp only [List.length_cons, Nat.succ_lt_succ_iff] at h
      simpa using ih n h

theorem getD_set_ne {α : Type} (l : List α) (i j : Nat) (x d : α)
    (h : j ≠ i) : (l.set i x).getD j d = l.getD j d := by
  induction l generalizing i j with
  | nil => simp
  | cons a t ih =>
    cases i with
    | zero =>
      cases j with
      | zero => exact absurd rfl h
      | succ m => simp
    | succ n =>
      cases j with
      | zero => simp
      | succ m =>
        simpa using ih n m (by omega)

theorem getD_append_left {α : Type} (l r : List α) (i : Nat) (d : α)
    (h : i < l.length) : (l ++ r).getD i d = l.getD i d := by
  induction l generalizing i with
  | nil => simp at h
  | cons a t ih =>
    cases i with
    | zero => rfl
    | succ n =>
      simp only [List.length_cons, Nat.succ_lt_succ_iff] at h
      simpa using ih n h

theorem getD_of_ge {α : Type} (l : List α) (i : Nat) (d : α)
    (h : l.length ≤ i) : l.getD i d = d := by
  induction l generalizing i with
  | nil => cases i <;> rfl
  | cons a t ih =>
    cases i with
    | zero => simp at h
    | succ n =>
      simp only [List.length_cons, Nat.succ_le_succ_iff] at h
      simpa using ih n h

theorem getD_replicate_same {α : Type} (k i : Nat) (c : α) :
    (List.replicate k c).getD i c = c := by
  induction k generalizing i with
  | zero => cases i <;> rfl
  | succ n ih =>
    cases i with
    | zero => rfl
    | succ m =>
      rw [List.replicate_succ, List.getD_cons_succ]
      exact ih m

theorem getD_append_right_len {α : Type} (l r : List α) (i : Nat) (d : α)
    (h : l.length ≤ i) : (l ++ r).getD i d = r.getD (i - l.length) d := by
  induction l generalizing i with
  | nil => simp
  | cons a t ih =>
    cases i with
    | zero => simp at h
    | succ n =>
      simp only [List.length_cons, Nat.succ_le_succ_iff] at h
      simpa [Nat.succ_sub_succ] using ih n h

theorem countP_set_balance {α : Type} (p : α → Bool) (l : List α)
    (i : Nat) (x d : α) (h : i < l.length) :
    (l.set i x).countP p + (if p (l.getD i d) then 1 else 0)
      = l.countP p + (if p x then 1 else 0) := by
  induction l generalizing i with
  | nil => simp at h
  | cons a t ih =>
    cases i with
    | zero =>
      simp only [List.set_cons_zero, List.countP_cons, List.getD_cons_zero]
      omega
    | succ n =>
      simp only [List.length_cons, Nat.succ_lt_succ_iff] at h
      have := ih n h
      simp only [List.set_cons_succ, List.countP_cons, List.getD_cons_succ]
      omega

theorem countP_append_replicate_false {α : Type} (p : α → Bool)
    (l : List α) (k : Nat) (c : α) (h : p c = false) :
    (l ++ List.replicate k c).countP p = l.countP p := by
  induction k with
  | zero => simp
  | succ n ih =>
    rw [List.replicate_succ]
    calc (l ++ c :: List.replicate n c).countP p
        = (l ++ List.replicate n c).countP p + (if p c then 1 else 0) := by
          simp [List.countP_append, List.countP_cons]
          omega
      _ = l.countP p := by simp [ih, h]

theorem filterMap_set_none {α β : Type} (f : α → Option β) (l : List α)
    (i : Nat) (x d : α) (h1 : f (l.getD i d) = none) (h2 : f x = none) :
    (l.set i x).filterMap f = l.filterMap f := by
  induction l generalizing i with
  | nil => simp
  | cons a t ih =>
    cases i with
    | zero =>
      simp only [List.getD_cons_zero] at h1
      simp [List.filterMap_cons, h1, h2]
    | succ n =>
      simp only [List.getD_cons_succ] at h1
      simp only [List.set_cons_succ, List.filterMap_cons]
      rw [ih n h1]

theorem filterMap_append_replicate_none {α β : Type} (f : α → Option β)
    (l : List α) (k : Nat) (c : α) (h : f c = none) :
    (l ++ List.replicate k c).filterMap f = l.filterMap f := by
  have hrep : (List.replicate k c).filterMap f = [] := by
    induction k with
    | zero => rfl
    | succ n ih => simp [List.replicate_succ, List.filterMap_cons, h, ih]
  simp [List.filterMap_append, hrep]

/-! Facts about the slot-table helpers. -/

theorem length_resizeTo (l : List GenerationNumberEntryPair) (n : Nat) :
    (resizeTo l n).length = max l.length n := by
  simp [resizeTo]
  omega

theorem getPair_resizeTo_lt (l : List GenerationNumberEntryPair)
    (n i : Nat) (h : i < l.length) :
    getPair (resizeTo l n) i = getPair l i := by
  unfold getPair resizeTo
  exact getD_append_left _ _ _ _ h

theorem getPair_resizeTo_ge (l : List GenerationNumberEntryPair)
    (n i : Nat) (h : l.length ≤ i) :
    getPair (resizeTo l n) i = emptyPair := by
  unfold getPair resizeTo
  rw [getD_append_right_len _ _ _ _ h]
  exact getD_replicate_same _ _ _

theorem getPair_set_self (l : List GenerationNumberEntryPair) (i : Nat)
    (x : GenerationNumberEntryPair) (h : i < l.length) :
    getPair (l.set i x) i = x :=
  getD_set_self l i x emptyPair h

theorem getPair_set_ne (l : List GenerationNumberEntryPair) (i j : Nat)
    (x : GenerationNumberEntryPair) (h : j ≠ i) :
    getPair (l.set i x) j = getPair l j :=
  getD_set_ne l i j x emptyPair h

theorem getPair_of_ge (l : List GenerationNumberEntryPair) (i : Nat)
    (h : l.length ≤ i) : getPair l i = emptyPair :=
  getD_of_ge l i emptyPair h

theorem getPair_lt_get (l : List GenerationNumberEntryPair) (i : Nat)
    (h : i < l.length) : getPair l i = l.get ⟨i, h⟩ := by
  induction l generalizing i with
  | nil => simp at h
  | cons a t ih =>
    cases i with
    | zero => rfl
    | succ n =>
      simp only [List.length_cons, Nat.succ_lt_succ_iff] at h
      simpa using ih n h

theorem getPair_mem (l : List GenerationNumberEntryPair) (i : Nat)
    (h : i < l.length) : getPair l i ∈ l := by
  rw [getPair_lt_get l i h]
  exact List.get_mem l i h

theorem lt_length_resizeTo (l : List GenerationNumberEntryPair)
    (i : Nat) : i < (resizeTo l (i + 1)).length := by
  rw [length_resizeTo]
  omega

/-! Facts about the operations. -/

theorem commitUpdate_serverList (s : CSL) :
    s.commitUpdate.serverList = s.serverList := by
  unfold CSL.commitUpdate
  split <;> rfl

theorem commitUpdate_numberOfMasters (s : CSL) :
    s.commitUpdate.numberOfMasters = s.numberOfMasters := by
  unfold CSL.commitUpdate
  split <;> rfl

theorem commitUpdate_numberOfBackups (s : CSL) :
    s.commitUpdate.numberOfBackups = s.numberOfBackups := by
  unfold CSL.commitUpdate
  split <;> rfl

theorem commitUpdate_update_nil (s : CSL) : s.commitUpdate.update = [] := by
  by_cases h : s.update.length = 0
  · unfold CSL.commitUpdate
    rw [if_pos h]
    exact List.length_eq_zero.mp h
  · unfold CSL.commitUpdate
    rw [if_neg h]

theorem lookupEntry_elim (s : CSL) (id : ServerId) (e : Entry)
    (h : s.lookupEntry id = some e) :
    (getPair s.serverList id.indexNumber).entry = some e
      ∧ e.serverId = id ∧ id.indexNumber < s.serverList.length := by
  unfold CSL.lookupEntry at h
  split at h
  · exact absurd h (by simp)
  · next e' hE =>
    by_cases he : e'.serverId = id
    · rw [if_pos he] at h
      injection h with h'
      subst h'
      refine ⟨hE, he, ?_⟩
      by_contra hlen
      rw [getPair_of_ge s.serverList id.indexNumber (by omega)] at hE
      exact absurd hE (by simp [emptyPair])
    · rw [if_neg he] at h
      exact absurd h (by simp)

theorem lookupEntry_intro (s : CSL) (id : ServerId) (e : Entry)
    (hE : (getPair s.serverList id.indexNumber).entry = some e)
    (hid : e.serverId = id) : s.lookupEntry id = some e := by
  unfold CSL.lookupEntry
  rw [hE]
  simp [hid]

theorem firstFreeFromAux_spec (l : List GenerationNumberEntryPair)
    (fuel : Nat) :
    ∀ i, l.length - i ≤ fuel →
      i ≤ firstFreeFromAux l fuel i
        ∧ (firstFreeFromAux l fuel i < l.length →
            (getPair l (firstFreeFromAux l fuel i)).entry = none) := by
  induction fuel with
  | zero =>
    intro i hf
    rw [firstFreeFromAux]
    exact ⟨Nat.le_refl i, fun h => absurd h (by omega)⟩
  | succ n ih =>
    intro i hf
    rw [firstFreeFromAux]
    by_cases hlt : i < l.length
    · rw [dif_pos hlt]
      by_cases he : (l.get ⟨i, hlt⟩).entry = none
      · rw [if_pos he]
        exact ⟨Nat.le_refl i,
          fun _ => by rw [getPair_lt_get l i hlt]; exact he⟩
      · rw [if_neg he]
        have := ih (i + 1) (by omega)
        exact ⟨by omega, this.2⟩
    · rw [dif_neg hlt]
      exact ⟨Nat.le_refl i, fun h => absurd h hlt⟩

theorem firstFreeFrom_spec (l : List GenerationNumberEntryPair)
    (i : Nat) :
    i ≤ firstFreeFrom l i
      ∧ (firstFreeFrom l i < l.length →
          (getPair l (firstFreeFrom l i)).entry = none) :=
  firstFreeFromAux_spec l (l.length - i) i (Nat.le_refl _)

theorem genId_free_slot (s : CSL) :
    (getPair (resizeTo s.serverList (firstFreeFrom s.serverList 1 + 1))
      (firstFreeFrom s.serverList 1)).entry = none := by
  by_cases h : firstFreeFrom s.serverList 1 < s.serverList.length
  · rw [getPair_resizeTo_lt _ _ _ h]
    exact (firstFreeFrom_spec s.serverList 1).2 h
  · rw [getPair_resizeTo_ge _ _ _ (by omega)]
    rfl

/-! Claim C4: the reuse-after-remove scenario. -/

/-- State after add((1,0), master+membership services) followed by
remove((1,0)), starting from the empty list. -/
def reuseTraceState : CSL :=
  runOps CSL.empty
    [PubOp.opAdd ⟨1, 0⟩ "tcp:a" ⟨true, false, true, false⟩ 0,
     PubOp.opRemove ⟨1, 0⟩]

/-- C4, counterexample: after add((1,0),...) then remove((1,0)), the
committed version is 2 — one version for the add batch and one for the
batch holding the CRASHED and DOWN records — not 3 as the claim
states. -/
theorem C4_counterexample :
    reuseTraceState.version = 2 ∧ reuseTraceState.version ≠ 3 := by decide

/-- C4, amended: starting from an empty list, after add(id1=(1,0), ...)
and remove(id1), the committed version equals 2 (one version for the add
batch, then one batch containing both the CRASHED and DOWN records), and
the next generate_unique_id returns id2 = (1,1). -/
theorem C4_amended_scenario :
    reuseTraceState.version = 2
    ∧ (reuseTraceState.generateUniqueId).1 = ⟨1, 1⟩
    ∧ reuseTraceState.updates.map ProtoServerList.version_number = [1, 2]
    ∧ (reuseTraceState.updates.getD 0 ⟨[], 0, ProtoListType.UPDATE⟩).server.map
        ProtoEntry.status = [ServerStatus.UP]
    ∧ (reuseTraceState.updates.getD 1 ⟨[], 0, ProtoListType.UPDATE⟩).server.map
        ProtoEntry.status = [ServerStatus.CRASHED, ServerStatus.DOWN] := by
  decide

/-! Claim C5: commitUpdate. -/

/-- History well-formedness: batch versions strictly increase along the
history and never exceed the committed version. -/
def historyInv (s : CSL) : Prop :=
  (s.updates.map ProtoServerList.version_number).Chain' (· < ·)
    ∧ ∀ b ∈ s.updates, b.version_number ≤ s.version

/-- C5: commitUpdate leaves committed version, history and the pending
batch unchanged when the pending batch has no records; otherwise it
increments the version by exactly one, tags the pending batch with the
new version, appends it at the back of the history, and clears the
pending batch, preserving strict sortedness of the history by
version. -/
theorem C5_commitUpdate (s : CSL) (hs : historyInv s) :
    (s.update = [] → s.commitUpdate = s)
    ∧ (s.update ≠ [] →
        s.commitUpdate.version = s.version + 1
        ∧ s.commitUpdate.updates
            = s.updates
              ++ [ProtoServerList.mk s.update (s.version + 1)
                    ProtoListType.UPDATE]
        ∧ s.commitUpdate.update = []
        ∧ historyInv s.commitUpdate) := by
  constructor
  · intro h
    unfold CSL.commitUpdate
    rw [if_pos (by simp [h])]
  · intro h
    have hlen : ¬ s.update.length = 0 := by simpa using h
    unfold CSL.commitUpdate
    rw [if_neg hlen]
    refine ⟨rfl, rfl, rfl, ?_, ?_⟩
    · show ((s.updates
        ++ [ProtoServerList.mk s.update (s.version + 1)
              ProtoListType.UPDATE]).map
        ProtoServerList.version_number).Chain' (· < ·)
      rw [List.map_append, List.chain'_append]
      refine ⟨hs.1, by simp, ?_⟩
      intro x hx y hy
      simp only [List.map_cons, List.map_nil, List.head?_cons,
        Option.mem_def, Option.some.injEq] at hy
      subst hy
      have hxm : x ∈ s.updates.map ProtoServerList.version_number := by
        obtain ⟨hne, hx'⟩ := List.mem_getLast?_eq_getLast hx
        subst hx'
        exact List.getLast_mem hne
      obtain ⟨b, hb, hbx⟩ := List.mem_map.mp hxm
      have := hs.2 b hb
      omega
    · show ∀ b ∈ s.updates
        ++ [ProtoServerList.mk s.update (s.version + 1)
              ProtoListType.UPDATE],
        b.version_number ≤ s.version + 1
      intro b hb
      rcases List.mem_append.mp hb with hL | hR
      · have := hs.2 b hL
        omega
      · simp only [List.mem_singleton] at hR
        subst hR
        exact Nat.le_refl _

/-- C5 witness: a state with one pending record and empty history. -/
def c5State : CSL :=
  ((CSL.empty).addL ⟨1, 0⟩ "tcp:a" ⟨true, false, true, false⟩ 0).1

/-- Witness for C5 at a concrete state with a non-empty pending batch. -/
theorem C5_commitUpdate_witness :
    (c5State.update = [] → c5State.commitUpdate = c5State)
    ∧ (c5State.update ≠ [] →
        c5State.commitUpdate.version = c5State.version + 1
        ∧ c5State.commitUpdate.updates
            = c5State.updates
              ++ [ProtoServerList.mk c5State.update (c5State.version + 1)
                    ProtoListType.UPDATE]
        ∧ c5State.commitUpdate.update = []
        ∧ historyInv c5State.commitUpdate) :=
  C5_commitUpdate c5State
    (by constructor
        · simp [c5State, CSL.addL, CSL.empty]
        · intro b hb
          simp [c5State, CSL.addL, CSL.empty] at hb)

/-! Claim C6: sync and isClusterUpToDate. -/

/-- C6: in any state in which sync() can return — the wait loop exits
exactly when isClusterUpToDate holds — every UP entry offering the
membership service has acknowledged the committed version and has no
update in flight. -/
theorem C6_sync_cluster_up_to_date (s : CSL) (h : s.syncReturnedIn) :
    ∀ i, i < s.serverList.length →
      ∀ e, (getPair s.serverList i).entry = some e →
        e.status = ServerStatus.UP → e.services.hasMembership = true →
        e.serverListVersion = s.version ∧ e.isBeingUpdated = false := by
  intro i hi e he hup hmem
  unfold CSL.syncReturnedIn CSL.isClusterUpToDate at h
  rw [List.all_eq_true] at h
  have hx := h (getPair s.serverList i) (getPair_mem s.serverList i hi)
  rw [he] at hx
  simp only [hmem, hup, decide_True, Bool.true_and, Bool.and_true,
    Bool.not_eq_true', Bool.or_eq_false_iff, decide_eq_false_iff_not,
    ne_eq, not_not] at hx
  exact hx

/-- Entry used by the C6 witness: UP, membership service, acknowledged
version 0, no update in flight. -/
def c6Entry : Entry :=
  ⟨⟨1, 0⟩, "tcp:m", ⟨true, false, true, false⟩, 0, ServerStatus.UP,
    0, 0, 0, false, 0, 0⟩

/-- State used by the C6 witness: one membership entry, version 0. -/
def c6State : CSL :=
  ⟨[emptyPair, ⟨1, some c6Entry⟩], 1, 0, 0, [], [], ⟨0, 0, false⟩⟩

/-- Witness for C6 at a concrete up-to-date state. -/
theorem C6_sync_cluster_up_to_date_witness :
    c6Entry.serverListVersion = c6State.version
      ∧ c6Entry.isBeingUpdated = false :=
  C6_sync_cluster_up_to_date c6State
    (by show c6State.isClusterUpToDate = true; decide) 1 (by decide) c6Entry
    (by decide) (by decide) (by decide)

/-! Claim C9: visibility and neutrality of generateUniqueId. -/

theorem genId_lookupEntry (s : CSL) :
    (s.generateUniqueId).2.lookupEntry (s.generateUniqueId).1
      = some (Entry.ofServer (s.generateUniqueId).1 "" ServiceMask.empty) := by
  apply lookupEntry_intro
  · have h := getPair_set_self
      (resizeTo s.serverList (firstFreeFrom s.serverList 1 + 1))
      (firstFreeFrom s.serverList 1)
      ⟨u32Mod ((getPair (resizeTo s.serverList
          (firstFreeFrom s.serverList 1 + 1))
          (firstFreeFrom s.serverList 1)).nextGenerationNumber + 1),
        some (Entry.ofServer
          ⟨firstFreeFrom s.serverList 1,
            (getPair (resizeTo s.serverList
              (firstFreeFrom s.serverList 1 + 1))
              (firstFreeFrom s.serverList 1)).nextGenerationNumber⟩
          "" ServiceMask.empty)⟩
      (lt_length_resizeTo _ _)
    exact congrArg GenerationNumberEntryPair.entry h
  · rfl

theorem genId_getReference (s : CSL) :
    (s.generateUniqueId).2.getReferenceFromServerId (s.generateUniqueId).1
      = Except.ok
          (Entry.ofServer (s.generateUniqueId).1 "" ServiceMask.empty) := by
  unfold CSL.getReferenceFromServerId
  rw [genId_lookupEntry s]

theorem genId_serialize_explicit (s : CSL) (m : ServiceMask) (i g : Nat)
    (id : ServerId)
    (hi : (getPair s.serverList i).entry = none ∨ s.serverList.length ≤ i) :
    ((resizeTo s.serverList (i + 1)).set i
        ⟨g, some (Entry.ofServer id "" ServiceMask.empty)⟩).filterMap
        (serFilter m)
      = s.serverList.filterMap (serFilter m) := by
  have hfree : (getPair (resizeTo s.serverList (i + 1)) i).entry = none := by
    by_cases hlt : i < s.serverList.length
    · rw [getPair_resizeTo_lt _ _ _ hlt]
      rcases hi with h | h
      · exact h
      · omega
    · rw [getPair_resizeTo_ge _ _ _ (by omega)]
      rfl
  have h1 : serFilter m
      ((resizeTo s.serverList (i + 1)).getD i emptyPair) = none := by
    show serFilter m (getPair (resizeTo s.serverList (i + 1)) i) = none
    unfold serFilter
    rw [hfree]
  rw [filterMap_set_none (serFilter m) _ i
    ⟨g, some (Entry.ofServer id "" ServiceMask.empty)⟩ emptyPair h1 rfl]
  unfold resizeTo
  exact filterMap_append_replicate_none _ _ _ _ rfl

theorem genId_serializeFiltered (s : CSL) (m : ServiceMask) :
    (s.generateUniqueId).2.serializeFiltered m = s.serializeFiltered m := by
  have hfree := genId_free_slot s
  by_cases hlt : firstFreeFrom s.serverList 1 < s.serverList.length
  · exact genId_serialize_explicit s m _ _ _
      (Or.inl (by rwa [getPair_resizeTo_lt _ _ _ hlt] at hfree))
  · exact genId_serialize_explicit s m _ _ _ (Or.inr (by omega))

/-- C9: immediately after generateUniqueId returns id, get(id) succeeds
and yields the placeholder entry — status UP, empty service locator,
empty service set — while masterCount, backupCount, and the full-list
serialization under the MASTER/BACKUP filter are unchanged. -/
theorem C9_generateUniqueId_placeholder (s : CSL) :
    (s.generateUniqueId).2.getReferenceFromServerId (s.generateUniqueId).1
        = Except.ok
            (Entry.ofServer (s.generateUniqueId).1 "" ServiceMask.empty)
    ∧ (Entry.ofServer (s.generateUniqueId).1 "" ServiceMask.empty).status
        = ServerStatus.UP
    ∧ (Entry.ofServer (s.generateUniqueId).1 ""
        ServiceMask.empty).serviceLocator = ""
    ∧ (Entry.ofServer (s.generateUniqueId).1 "" ServiceMask.empty).services
        = ServiceMask.empty
    ∧ (s.generateUniqueId).2.masterCount = s.masterCount
    ∧ (s.generateUniqueId).2.backupCount = s.backupCount
    ∧ (s.generateUniqueId).2.serialize (ServiceMask.mk true true false false)
        = s.serialize (ServiceMask.mk true true false false) := by
  refine ⟨genId_getReference s, rfl, rfl, rfl, rfl, rfl, ?_⟩
  unfold CSL.serialize
  rw [genId_serializeFiltered s]
  rfl

/-! Shared facts about the internal crashed on a not-yet-CRASHED entry. -/

/-- State produced by the mutating branch of the internal crashed. -/
def crashedState (s : CSL) (id : ServerId) (e : Entry) : CSL :=
  { s with
      serverList := setEntryAt s.serverList id.indexNumber
        (some { e with status := ServerStatus.CRASHED }),
      numberOfMasters :=
        if e.isMaster then s.numberOfMasters - 1 else s.numberOfMasters,
      numberOfBackups :=
        if e.isBackup then s.numberOfBackups - 1 else s.numberOfBackups,
      update := s.update
        ++ [({ e with status := ServerStatus.CRASHED }).serializeEntry] }

theorem crashedL_up_eq (s : CSL) (id : ServerId) (e : Entry)
    (hl : s.lookupEntry id = some e)
    (hne : ¬ e.status = ServerStatus.CRASHED) :
    s.crashedL id
      = Except.ok (crashedState s id e,
          [({ e with status := ServerStatus.CRASHED },
            ServerChangeEvent.SERVER_CRASHED)]) := by
  simp only [CSL.crashedL, hl]
  rw [if_neg hne]
  rfl

theorem lookupEntry_crashedState (s : CSL) (id : ServerId) (e : Entry)
    (hid : e.serverId = id) (hlen : id.indexNumber < s.serverList.length) :
    (crashedState s id e).lookupEntry id
      = some { e with status := ServerStatus.CRASHED } := by
  apply lookupEntry_intro
  · show (getPair (setEntryAt s.serverList id.indexNumber
      (some { e with status := ServerStatus.CRASHED }))
      id.indexNumber).entry = _
    unfold setEntryAt
    rw [getPair_set_self _ _ _ hlen]
  · exact hid

theorem lookupEntry_commitUpdate (s : CSL) (id : ServerId) :
    s.commitUpdate.lookupEntry id = s.lookupEntry id := by
  unfold CSL.lookupEntry
  rw [commitUpdate_serverList]

theorem commitUpdate_of_update_nil (s : CSL) (h : s.update = []) :
    s.commitUpdate = s := by
  unfold CSL.commitUpdate
  rw [if_pos (by simp [h])]

/-! Claim C10: the frame of the internal crashed. -/

/-- C10: on an UP entry, crashed(lock, id) changes exactly the entry's
status (to CRASHED), the cached master/backup counts, and the pending
change batch; the entry's remaining fields, every other slot, the slot's
generation counter, the table length, the committed version, the history
and the scan state are all unchanged. -/
theorem C10_crashed_frame (s : CSL) (id : ServerId) (e : Entry)
    (hl : s.lookupEntry id = some e) (hup : e.status = ServerStatus.UP) :
    s.crashedL id
      = Except.ok
          ({ s with
              serverList := setEntryAt s.serverList id.indexNumber
                (some { e with status := ServerStatus.CRASHED }),
              numberOfMasters :=
                if e.isMaster then s.numberOfMasters - 1
                else s.numberOfMasters,
              numberOfBackups :=
                if e.isBackup then s.numberOfBackups - 1
                else s.numberOfBackups,
              update := s.update
                ++ [({ e with
                      status := ServerStatus.CRASHED }).serializeEntry] },
            [({ e with status := ServerStatus.CRASHED },
              ServerChangeEvent.SERVER_CRASHED)])
    ∧ getPair (setEntryAt s.serverList id.indexNumber
          (some { e with status := ServerStatus.CRASHED })) id.indexNumber
        = ⟨(getPair s.serverList id.indexNumber).nextGenerationNumber,
            some { e with status := ServerStatus.CRASHED }⟩
    ∧ (∀ j, j ≠ id.indexNumber →
        getPair (setEntryAt s.serverList id.indexNumber
          (some { e with status := ServerStatus.CRASHED })) j
          = getPair s.serverList j)
    ∧ (setEntryAt s.serverList id.indexNumber
        (some { e with status := ServerStatus.CRASHED })).length
        = s.serverList.length := by
  refine ⟨?_, ?_, ?_, ?_⟩
  · have hne : ¬ e.status = ServerStatus.CRASHED := by
      rw [hup]
      intro hc
      cases hc
    exact crashedL_up_eq s id e hl hne
  · unfold setEntryAt
    exact getPair_set_self _ _ _ (lookupEntry_elim s id e hl).2.2
  · intro j hj
    unfold setEntryAt
    exact getPair_set_ne _ _ _ _ hj
  · unfold setEntryAt
    exact List.length_set _ _ _

/-- State used by the C10 witness: a single UP master entry at slot 1. -/
def c10State : CSL :=
  ((CSL.empty).add ⟨1, 0⟩ "tcp:a" ⟨true, false, true, false⟩ 0).1

/-- Entry stored at slot 1 of the C10 witness state. -/
def c10Entry : Entry :=
  ⟨⟨1, 0⟩, "tcp:a", ⟨true, false, true, false⟩, 0, ServerStatus.UP,
    0, 0, 0, false, 0, 0⟩

/-! Claim C3: events and wire records emitted by remove. -/

/-- State used by the C3 counterexample and witness: one UP entry. -/
def c3State : CSL :=
  runOps CSL.empty
    [PubOp.opAdd ⟨1, 0⟩ "tcp:b" ⟨true, false, true, false⟩ 0]

/-- The UP entry stored at slot 1 of c3State. -/
def c3Entry : Entry :=
  ⟨⟨1, 0⟩, "tcp:b", ⟨true, false, true, false⟩, 0, ServerStatus.UP,
    0, 0, 0, false, 0, 0⟩

/-- C3, counterexample: removing an UP entry delivers the subscriber
events SERVER_CRASHED followed by SERVER_REMOVED — the internal crashed
call fires its own tracker notification — not exactly one SERVER_REMOVED
with no SERVER_CRASHED as the claim states. -/
theorem C3_counterexample :
    (match c3State.remove ⟨1, 0⟩ with
     | Except.ok p => some (p.2.map Prod.snd)
     | Except.error _ => none)
      = some [ServerChangeEvent.SERVER_CRASHED,
              ServerChangeEvent.SERVER_REMOVED]
    ∧ [ServerChangeEvent.SERVER_CRASHED, ServerChangeEvent.SERVER_REMOVED]
        ≠ [ServerChangeEvent.SERVER_REMOVED] := by
  decide

/-- C3, amended: for every entry present in the list, remove(id)
delivers SERVER_CRASHED followed by SERVER_REMOVED when the entry was
UP, and exactly one SERVER_REMOVED when it was already CRASHED, while
the wire-format change records appended are {CRASHED, DOWN} if the entry
was UP and {DOWN} if it was already CRASHED. -/
theorem C3_amended_remove_events (s : CSL) (id : ServerId) (e : Entry)
    (hl : s.lookupEntry id = some e)
    (hst : e.status = ServerStatus.UP ∨ e.status = ServerStatus.CRASHED) :
    ∃ s' evs, s.removeL id = Except.ok (s', evs)
      ∧ s.remove id = Except.ok (s'.commitUpdate, evs)
      ∧ (e.status = ServerStatus.UP →
          evs.map Prod.snd
            = [ServerChangeEvent.SERVER_CRASHED,
               ServerChangeEvent.SERVER_REMOVED]
          ∧ s'.update = s.update
              ++ [({ e with status := ServerStatus.CRASHED }).serializeEntry,
                  ({ e with status := ServerStatus.DOWN }).serializeEntry])
      ∧ (e.status = ServerStatus.CRASHED →
          evs.map Prod.snd = [ServerChangeEvent.SERVER_REMOVED]
          ∧ s'.update = s.update
              ++ [({ e with status := ServerStatus.DOWN }).serializeEntry])
    := by
  obtain ⟨hE, hid, hlen⟩ := lookupEntry_elim s id e hl
  rcases hst with hup | hcr
  · have hne : ¬ e.status = ServerStatus.CRASHED := by
      rw [hup]
      intro hc
      cases hc
    have hc1 := crashedL_up_eq s id e hl hne
    have hl1 := lookupEntry_crashedState s id e hid hlen
    have hrem : s.removeL id
        = Except.ok
            ({ crashedState s id e with
                serverList := setEntryAt (crashedState s id e).serverList
                  id.indexNumber none,
                update := (crashedState s id e).update
                  ++ [({ e with
                        status := ServerStatus.DOWN }).serializeEntry] },
              [({ e with status := ServerStatus.CRASHED },
                ServerChangeEvent.SERVER_CRASHED),
               ({ e with status := ServerStatus.DOWN },
                ServerChangeEvent.SERVER_REMOVED)]) := by
      simp only [CSL.removeL, hl, hc1, hl1]
      rfl
    refine ⟨_, _, hrem, ?_, ?_, ?_⟩
    · unfold CSL.remove
      rw [hrem]
      rfl
    · intro _
      refine ⟨rfl, ?_⟩
      show (crashedState s id e).update
          ++ [({ e with status := ServerStatus.DOWN }).serializeEntry] = _
      unfold crashedState
      simp [List.append_assoc]
    · intro hcr2
      rw [hup] at hcr2
      cases hcr2
  · have hnop : s.crashedL id = Except.ok (s, []) := by
      simp only [CSL.crashedL, hl]
      rw [if_pos hcr]
    have hrem : s.removeL id
        = Except.ok
            ({ s with
                serverList := setEntryAt s.serverList id.indexNumber none,
                update := s.update
                  ++ [({ e with
                        status := ServerStatus.DOWN }).serializeEntry] },
              [({ e with status := ServerStatus.DOWN },
                ServerChangeEvent.SERVER_REMOVED)]) := by
      simp only [CSL.removeL, hl, hnop]
      rfl
    refine ⟨_, _, hrem, ?_, ?_, ?_⟩
    · unfold CSL.remove
      rw [hrem]
      rfl
    · intro hup2
      rw [hcr] at hup2
      cases hup2
    · intro _
      exact ⟨rfl, rfl⟩

/-- Witness for C3 at a concrete UP entry. -/
theorem C3_amended_remove_events_witness :
    ∃ s' evs, c3State.removeL ⟨1, 0⟩ = Except.ok (s', evs)
      ∧ c3State.remove ⟨1, 0⟩ = Except.ok (s'.commitUpdate, evs)
      ∧ (c3Entry.status = ServerStatus.UP →
          evs.map Prod.snd
            = [ServerChangeEvent.SERVER_CRASHED,
               ServerChangeEvent.SERVER_REMOVED]
          ∧ s'.update = c3State.update
              ++ [({ c3Entry with
                    status := ServerStatus.CRASHED }).serializeEntry,
                  ({ c3Entry with
                    status := ServerStatus.DOWN }).serializeEntry])
      ∧ (c3Entry.status = ServerStatus.CRASHED →
          evs.map Prod.snd = [ServerChangeEvent.SERVER_REMOVED]
          ∧ s'.update = c3State.update
              ++ [({ c3Entry with
                    status := ServerStatus.DOWN }).serializeEntry]) :=
  C3_amended_remove_events c3State ⟨1, 0⟩ c3Entry (by decide)
    (Or.inl (by decide))

/-! Claim C7: idempotence of crashed. -/

/-- State used by the C7 counterexample and witness: one already CRASHED
entry at slot 1. -/
def c7State : CSL :=
  runOps CSL.empty
    [PubOp.opAdd ⟨1, 0⟩ "tcp:c" ⟨true, false, true, false⟩ 0,
     PubOp.opCrashed ⟨1, 0⟩]

/-- The CRASHED entry stored at slot 1 of c7State. -/
def c7Entry : Entry :=
  ⟨⟨1, 0⟩, "tcp:c", ⟨true, false, true, false⟩, 0, ServerStatus.CRASHED,
    0, 0, 0, false, 0, 0⟩

/-- C7, counterexample: on an entry that is already CRASHED, the pair
crashed(id); crashed(id) delivers zero SERVER_CRASHED subscriber events,
not exactly one as the claim states for every UP-or-CRASHED entry. -/
theorem C7_counterexample :
    (match c7State.crashed ⟨1, 0⟩ with
     | Except.ok p =>
       match p.1.crashed ⟨1, 0⟩ with
       | Except.ok q =>
         some (((p.2 ++ q.2).map Prod.snd).countP
           (fun ev => decide (ev = ServerChangeEvent.SERVER_CRASHED)))
       | Except.error _ => none
     | Except.error _ => none) = some 0
    ∧ (0 : Nat) ≠ 1 := by
  decide

/-- C7, amended: for every UP-or-CRASHED entry, crashed(id); crashed(id)
produces the same observable state as a single crashed(id), and delivers
exactly one SERVER_CRASHED subscriber event when the entry was UP and
none when it was already CRASHED. -/
theorem C7_amended_crashed_idempotent (s : CSL) (id : ServerId)
    (e : Entry) (hl : s.lookupEntry id = some e)
    (hst : e.status = ServerStatus.UP ∨ e.status = ServerStatus.CRASHED) :
    ∃ s1 ev1, s.crashed id = Except.ok (s1, ev1)
      ∧ s1.crashed id = Except.ok (s1, [])
      ∧ (e.status = ServerStatus.UP →
          ev1.map Prod.snd = [ServerChangeEvent.SERVER_CRASHED])
      ∧ (e.status = ServerStatus.CRASHED → ev1 = []) := by
  obtain ⟨hE, hid, hlen⟩ := lookupEntry_elim s id e hl
  rcases hst with hup | hcr
  · have hne : ¬ e.status = ServerStatus.CRASHED := by
      rw [hup]
      intro hc
      cases hc
    have hc1 := crashedL_up_eq s id e hl hne
    have hl1 := lookupEntry_crashedState s id e hid hlen
    have hl2 : (crashedState s id e).commitUpdate.lookupEntry id
        = some { e with status := ServerStatus.CRASHED } := by
      rw [lookupEntry_commitUpdate]
      exact hl1
    have hnoop : (crashedState s id e).commitUpdate.crashedL id
        = Except.ok ((crashedState s id e).commitUpdate, []) := by
      simp only [CSL.crashedL, hl2]
      simp
    refine ⟨(crashedState s id e).commitUpdate,
      [({ e with status := ServerStatus.CRASHED },
        ServerChangeEvent.SERVER_CRASHED)], ?_, ?_, ?_, ?_⟩
    · unfold CSL.crashed
      rw [hc1]
      rfl
    · unfold CSL.crashed
      rw [hnoop]
      simp only [Except.map]
      rw [commitUpdate_of_update_nil _ (commitUpdate_update_nil _)]
    · intro _
      rfl
    · intro hcr2
      rw [hup] at hcr2
      cases hcr2
  · have hnop : s.crashedL id = Except.ok (s, []) := by
      simp only [CSL.crashedL, hl]
      rw [if_pos hcr]
    have hl2 : s.commitUpdate.lookupEntry id = some e := by
      rw [lookupEntry_commitUpdate]
      exact hl
    have hnop2 : s.commitUpdate.crashedL id
        = Except.ok (s.commitUpdate, []) := by
      simp only [CSL.crashedL, hl2]
      rw [if_pos hcr]
    refine ⟨s.commitUpdate, [], ?_, ?_, ?_, ?_⟩
    · unfold CSL.crashed
      rw [hnop]
      rfl
    · unfold CSL.crashed
      rw [hnop2]
      simp only [Except.map]
      rw [commitUpdate_of_update_nil _ (commitUpdate_update_nil _)]
    · intro hup2
      rw [hcr] at hup2
      cases hup2
    · intro _
      rfl

/-- Witness for C7 at a concrete already-CRASHED entry. -/
theorem C7_amended_crashed_idempotent_witness :
    ∃ s1 ev1, c7State.crashed ⟨1, 0⟩ = Except.ok (s1, ev1)
      ∧ s1.crashed ⟨1, 0⟩ = Except.ok (s1, [])
      ∧ (c7Entry.status = ServerStatus.UP →
          ev1.map Prod.snd = [ServerChangeEvent.SERVER_CRASHED])
      ∧ (c7Entry.status = ServerStatus.CRASHED → ev1 = []) :=
  C7_amended_crashed_idempotent c7State ⟨1, 0⟩ c7Entry (by decide)
    (Or.inr (by decide))

/-- Witness for C10 at a concrete UP entry. -/
theorem C10_crashed_frame_witness :
    getPair (setEntryAt c10State.serverList 1
        (some { c10Entry with status := ServerStatus.CRASHED })) 0
      = getPair c10State.serverList 0
    ∧ (setEntryAt c10State.serverList 1
        (some { c10Entry with status := ServerStatus.CRASHED })).length
      = c10State.serverList.length :=
  ⟨(C10_crashed_frame c10State ⟨1, 0⟩ c10Entry (by decide)
      (by decide)).2.2.1 0 (by decide),
   (C10_crashed_frame c10State ⟨1, 0⟩ c10Entry (by decide)
      (by decide)).2.2.2⟩

/-! Claim C8: error conditions of id-keyed and index-keyed operations. -/

/-- Whether a call completed instead of throwing. -/
def isOkE {α : Type} : Except Unit α → Bool
  | Except.ok _ => true
  | Except.error _ => false

/-- Some occupied slot holds an entry whose full 64-bit id equals the
argument. -/
def occupiedWith (s : CSL) (id : ServerId) : Prop :=
  ∃ i, i < s.serverList.length
    ∧ ∃ e, (getPair s.serverList i).entry = some e ∧ e.serverId = id

/-- Spec invariant I1, checked over the table: every stored entry's id
carries the index of its slot (true of every state the mutators build,
since each constructs the entry from the slot's own index). -/
def idIndexInvB (s : CSL) : Bool :=
  (List.range s.serverList.length).all (fun i =>
    match (getPair s.serverList i).entry with
    | none => true
    | some e => decide (e.serverId.indexNumber = i))

theorem lookupEntry_none_iff (s : CSL) (hinv : idIndexInvB s = true)
    (id : ServerId) : s.lookupEntry id = none ↔ ¬ occupiedWith s id := by
  constructor
  · intro h hocc
    obtain ⟨i, hi, e, he, hid⟩ := hocc
    have hidx : e.serverId.indexNumber = i := by
      have hx := (List.all_eq_true.mp hinv) i (List.mem_range.mpr hi)
      rw [he] at hx
      simpa using hx
    have hix : id.indexNumber = i := by
      rw [← hid]
      exact hidx
    have hlook := lookupEntry_intro s id e (by rw [hix]; exact he) hid
    rw [hlook] at h
    exact Option.noConfusion h
  · intro hno
    cases hcase : s.lookupEntry id with
    | none => rfl
    | some e =>
      obtain ⟨hE, hid, hlen⟩ := lookupEntry_elim s id e hcase
      exact absurd ⟨id.indexNumber, hlen, e, hE, hid⟩ hno

theorem isOkE_getReference (s : CSL) (id : ServerId) :
    isOkE (s.getReferenceFromServerId id) = false
      ↔ s.lookupEntry id = none := by
  unfold CSL.getReferenceFromServerId
  cases h : s.lookupEntry id with
  | none => simp [isOkE]
  | some e => simp [isOkE]

theorem isOkE_map {α β : Type} (f : α → β) (x : Except Unit α) :
    isOkE (x.map f) = isOkE x := by
  cases x <;> rfl

theorem isOkE_crashedL (s : CSL) (id : ServerId) :
    isOkE (s.crashedL id) = isOkE (s.getReferenceFromServerId id) := by
  unfold CSL.crashedL CSL.getReferenceFromServerId
  cases h : s.lookupEntry id with
  | none => rfl
  | some e =>
    by_cases hc : e.status = ServerStatus.CRASHED <;> simp [isOkE, hc]

theorem isOkE_removeL (s : CSL) (id : ServerId) :
    isOkE (s.removeL id) = isOkE (s.getReferenceFromServerId id) := by
  cases h : s.lookupEntry id with
  | none =>
    unfold CSL.removeL CSL.getReferenceFromServerId
    rw [h]
    rfl
  | some e =>
    obtain ⟨hE, hid, hlen⟩ := lookupEntry_elim s id e h
    by_cases hc : e.status = ServerStatus.CRASHED
    · have hnop : s.crashedL id = Except.ok (s, []) := by
        simp only [CSL.crashedL, h]
        rw [if_pos hc]
      simp [CSL.removeL, CSL.getReferenceFromServerId, h, hnop, isOkE]
    · have hc1 := crashedL_up_eq s id e h hc
      have hl1 := lookupEntry_crashedState s id e hid hlen
      simp [CSL.removeL, CSL.getReferenceFromServerId, h, hc1, hl1, isOkE]

theorem isOkE_setMinOpenSegmentId (s : CSL) (id : ServerId) (v : Nat) :
    isOkE (s.setMinOpenSegmentId id v)
      = isOkE (s.getReferenceFromServerId id) := by
  unfold CSL.setMinOpenSegmentId CSL.getReferenceFromServerId
  cases h : s.lookupEntry id with
  | none => rfl
  | some e =>
    by_cases hc : e.minOpenSegmentId < v <;> simp [isOkE, hc]

theorem isOkE_setReplicationId (s : CSL) (id : ServerId) (v : Nat) :
    isOkE (s.setReplicationId id v)
      = isOkE (s.getReferenceFromServerId id) := by
  unfold CSL.setReplicationId CSL.getReferenceFromServerId
  cases h : s.lookupEntry id with
  | none => rfl
  | some e => rfl

theorem isOkE_addServerInfoLogId (s : CSL) (id : ServerId) (v : Nat) :
    isOkE (s.addServerInfoLogId id v)
      = isOkE (s.getReferenceFromServerId id) := by
  unfold CSL.addServerInfoLogId CSL.getReferenceFromServerId
  cases h : s.lookupEntry id with
  | none => rfl
  | some e => rfl

theorem isOkE_getServerInfoLogId (s : CSL) (id : ServerId) :
    isOkE (s.getServerInfoLogId id)
      = isOkE (s.getReferenceFromServerId id) := by
  unfold CSL.getServerInfoLogId CSL.getReferenceFromServerId
  cases h : s.lookupEntry id with
  | none => rfl
  | some e => rfl

theorem isOkE_addServerUpdateLogId (s : CSL) (id : ServerId) (v : Nat) :
    isOkE (s.addServerUpdateLogId id v)
      = isOkE (s.getReferenceFromServerId id) := by
  unfold CSL.addServerUpdateLogId CSL.getReferenceFromServerId
  cases h : s.lookupEntry id with
  | none => rfl
  | some e => rfl

theorem isOkE_getServerUpdateLogId (s : CSL) (id : ServerId) :
    isOkE (s.getServerUpdateLogId id)
      = isOkE (s.getReferenceFromServerId id) := by
  unfold CSL.getServerUpdateLogId CSL.getReferenceFromServerId
  cases h : s.lookupEntry id with
  | none => rfl
  | some e => rfl

theorem isOkE_atIndex (s : CSL) (index : Nat) :
    isOkE (s.atIndex index) = false ↔ s.serverList.length ≤ index := by
  unfold CSL.atIndex
  by_cases h : s.serverList.length ≤ index <;> simp [isOkE, h]

/-- C8: in states satisfying spec invariant I1, every id-keyed read or
mutation throws exactly when no occupied slot holds an entry whose full
64-bit id equals the argument (they all fail together with the lookup),
and the index-keyed read throws exactly when the index is not below the
slot-table size. -/
theorem C8_error_conditions (s : CSL) (hinv : idIndexInvB s = true)
    (id : ServerId) (index v : Nat) :
    (isOkE (s.getReferenceFromServerId id) = false ↔ ¬ occupiedWith s id)
    ∧ isOkE (s.crashed id) = isOkE (s.getReferenceFromServerId id)
    ∧ isOkE (s.remove id) = isOkE (s.getReferenceFromServerId id)
    ∧ isOkE (s.setMinOpenSegmentId id v)
        = isOkE (s.getReferenceFromServerId id)
    ∧ isOkE (s.setReplicationId id v)
        = isOkE (s.getReferenceFromServerId id)
    ∧ isOkE (s.addServerInfoLogId id v)
        = isOkE (s.getReferenceFromServerId id)
    ∧ isOkE (s.getServerInfoLogId id)
        = isOkE (s.getReferenceFromServerId id)
    ∧ isOkE (s.addServerUpdateLogId id v)
        = isOkE (s.getReferenceFromServerId id)
    ∧ isOkE (s.getServerUpdateLogId id)
        = isOkE (s.getReferenceFromServerId id)
    ∧ (isOkE (s.atIndex index) = false ↔ s.serverList.length ≤ index) := by
  refine ⟨?_, ?_, ?_, isOkE_setMinOpenSegmentId s id v,
    isOkE_setReplicationId s id v, isOkE_addServerInfoLogId s id v,
    isOkE_getServerInfoLogId s id, isOkE_addServerUpdateLogId s id v,
    isOkE_getServerUpdateLogId s id, isOkE_atIndex s index⟩
  · rw [isOkE_getReference]
    exact lookupEntry_none_iff s hinv id
  · show isOkE ((s.crashedL id).map _) = _
    rw [isOkE_map]
    exact isOkE_crashedL s id
  · show isOkE ((s.removeL id).map _) = _
    rw [isOkE_map]
    exact isOkE_removeL s id

/-- State used by the C8 witness: one UP entry at slot 1. -/
def c8State : CSL :=
  runOps CSL.empty
    [PubOp.opAdd ⟨1, 0⟩ "tcp:d" ⟨true, true, true, false⟩ 9]

/-- Witness for C8 at a concrete state satisfying invariant I1. -/
theorem C8_error_conditions_witness :
    (isOkE (c8State.getReferenceFromServerId ⟨2, 5⟩) = false
        ↔ ¬ occupiedWith c8State ⟨2, 5⟩)
    ∧ isOkE (c8State.crashed ⟨2, 5⟩)
        = isOkE (c8State.getReferenceFromServerId ⟨2, 5⟩)
    ∧ isOkE (c8State.remove ⟨2, 5⟩)
        = isOkE (c8State.getReferenceFromServerId ⟨2, 5⟩)
    ∧ isOkE (c8State.setMinOpenSegmentId ⟨2, 5⟩ 7)
        = isOkE (c8State.getReferenceFromServerId ⟨2, 5⟩)
    ∧ isOkE (c8State.setReplicationId ⟨2, 5⟩ 7)
        = isOkE (c8State.getReferenceFromServerId ⟨2, 5⟩)
    ∧ isOkE (c8State.addServerInfoLogId ⟨2, 5⟩ 7)
        = isOkE (c8State.getReferenceFromServerId ⟨2, 5⟩)
    ∧ isOkE (c8State.getServerInfoLogId ⟨2, 5⟩)
        = isOkE (c8State.getReferenceFromServerId ⟨2, 5⟩)
    ∧ isOkE (c8State.addServerUpdateLogId ⟨2, 5⟩ 7)
        = isOkE (c8State.getReferenceFromServerId ⟨2, 5⟩)
    ∧ isOkE (c8State.getServerUpdateLogId ⟨2, 5⟩)
        = isOkE (c8State.getReferenceFromServerId ⟨2, 5⟩)
    ∧ (isOkE (c8State.atIndex 6) = false ↔ c8State.serverList.length ≤ 6) :=
  C8_error_conditions c8State (by decide) ⟨2, 5⟩ 6 7

/-! Claim C1: generation counters under add and generateUniqueId. -/

/-- Trace leaving slot 1 free with nextGenerationNumber 6: add((1,5))
sets the counter to 6 and remove((1,5)) frees the slot, keeping it. -/
def c1State : CSL :=
  runOps CSL.empty
    [PubOp.opAdd ⟨1, 5⟩ "tcp:e" ServiceMask.empty 0,
     PubOp.opRemove ⟨1, 5⟩]

/-- C1, counterexample: with slot 1 free and next_generation 6,
add((1,2), ...) overwrites the slot counter with generation+1 = 3, not
max(6, 2+1) = 6: the source assigns unconditionally rather than taking
the max. -/
theorem C1_counterexample :
    (getPair c1State.serverList 1).nextGenerationNumber = 6
    ∧ (getPair ((c1State.add ⟨1, 2⟩ "tcp:e" ServiceMask.empty
        0).1.serverList) 1).nextGenerationNumber = 3
    ∧ (3 : Nat) ≠ max 6 (2 + 1) := by decide

/-- The entry that add installs: the three-argument Entry with the read
speed recorded when the mask includes the backup service. -/
def addedEntry (id : ServerId) (loc : String) (sm : ServiceMask)
    (rs : Nat) : Entry :=
  if sm.hasBackup then
    { Entry.ofServer id loc sm with expectedReadMBytesPerSec := rs }
  else Entry.ofServer id loc sm

theorem addL_serverList_eq (s : CSL) (id : ServerId) (loc : String)
    (sm : ServiceMask) (rs : Nat) :
    (s.addL id loc sm rs).1.serverList
      = (resizeTo s.serverList (id.indexNumber + 1)).set id.indexNumber
          ⟨u32Mod (id.generationNumber + 1),
            some (addedEntry id loc sm rs)⟩ := rfl

theorem add_serverList_eq (s : CSL) (id : ServerId) (loc : String)
    (sm : ServiceMask) (rs : Nat) :
    (s.add id loc sm rs).1.serverList
      = (resizeTo s.serverList (id.indexNumber + 1)).set id.indexNumber
          ⟨u32Mod (id.generationNumber + 1),
            some (addedEntry id loc sm rs)⟩ := by
  show (s.addL id loc sm rs).1.commitUpdate.serverList = _
  rw [commitUpdate_serverList]
  exact addL_serverList_eq s id loc sm rs

theorem genId_serverList_eq (s : CSL) :
    (s.generateUniqueId).2.serverList
      = (resizeTo s.serverList (firstFreeFrom s.serverList 1 + 1)).set
          (firstFreeFrom s.serverList 1)
          ⟨u32Mod ((getPair (resizeTo s.serverList
              (firstFreeFrom s.serverList 1 + 1))
              (firstFreeFrom s.serverList 1)).nextGenerationNumber + 1),
            some (Entry.ofServer (s.generateUniqueId).1 ""
              ServiceMask.empty)⟩ := rfl

theorem occupied_after_set_some (l : List GenerationNumberEntryPair)
    (j k : Nat) (x : GenerationNumberEntryPair) (hx : x.entry ≠ none)
    (hk : (getPair l k).entry ≠ none) :
    (getPair ((resizeTo l (j + 1)).set j x) k).entry ≠ none := by
  have hklen : k < l.length := by
    by_contra hge
    rw [getPair_of_ge l k (by omega)] at hk
    exact hk rfl
  by_cases hkj : k = j
  · subst hkj
    rw [getPair_set_self _ _ _ (lt_length_resizeTo _ _)]
    exact hx
  · rw [getPair_set_ne _ _ _ _ hkj]
    rw [getPair_resizeTo_lt _ _ _ hklen]
    exact hk

/-- Pairwise-distinct slot indices plus occupancy of every issued id's
slot: the invariant that carries claim C1's consequence. -/
def issuedInv (p : CSL × List ServerId) : Prop :=
  p.2.Pairwise (fun a b => a.indexNumber ≠ b.indexNumber)
    ∧ ∀ a ∈ p.2, (getPair p.1.serverList a.indexNumber).entry ≠ none

theorem stepIssue_preserves (p : CSL × List ServerId) (op : PubOp)
    (hop : addOrGen op = true) (h : issuedInv p) :
    issuedInv (stepIssue p op) := by
  cases op with
  | opAdd id loc sm rs =>
    refine ⟨h.1, ?_⟩
    intro a ha
    show (getPair ((p.1.add id loc sm rs).1.serverList)
      a.indexNumber).entry ≠ none
    rw [add_serverList_eq]
    exact occupied_after_set_some _ _ _ _ (by simp) (h.2 a ha)
  | opGenerateUniqueId =>
    have hdist : ∀ a ∈ p.2,
        a.indexNumber ≠ (p.1.generateUniqueId).1.indexNumber := by
      intro a ha heq
      have hocc := h.2 a ha
      have heq' : a.indexNumber = firstFreeFrom p.1.serverList 1 := heq
      have hfree := genId_free_slot p.1
      by_cases hlt : firstFreeFrom p.1.serverList 1 < p.1.serverList.length
      · rw [getPair_resizeTo_lt _ _ _ hlt] at hfree
        rw [heq'] at hocc
        exact hocc hfree
      · have halen : a.indexNumber < p.1.serverList.length := by
          by_contra hge
          rw [getPair_of_ge _ _ (by omega)] at hocc
          exact hocc rfl
        omega
    constructor
    · show (p.2 ++ [(p.1.generateUniqueId).1]).Pairwise _
      rw [List.pairwise_append]
      refine ⟨h.1, List.pairwise_singleton _ _, ?_⟩
      intro a ha b hb
      rw [List.mem_singleton] at hb
      subst hb
      exact hdist a ha
    · intro a ha
      show (getPair ((p.1.generateUniqueId).2.serverList)
        a.indexNumber).entry ≠ none
      rw [genId_serverList_eq]
      rcases List.mem_append.mp ha with haL | haR
      · exact occupied_after_set_some _ _ _ _ (by simp) (h.2 a haL)
      · rw [List.mem_singleton] at haR
        subst haR
        have hidx : ((p.1.generateUniqueId).1).indexNumber
            = firstFreeFrom p.1.serverList 1 := rfl
        rw [hidx, getPair_set_self _ _ _ (lt_length_resizeTo _ _)]
        simp
  | opCrashed id => exact Bool.noConfusion hop
  | opRemove id => exact Bool.noConfusion hop
  | opSetMinOpenSegmentId id v => exact Bool.noConfusion hop
  | opSetReplicationId id v => exact Bool.noConfusion hop
  | opAddServerInfoLogId id v => exact Bool.noConfusion hop
  | opAddServerUpdateLogId id v => exact Bool.noConfusion hop

theorem foldl_stepIssue_inv (ops : List PubOp) :
    ∀ p, issuedInv p → ops.all addOrGen = true →
      issuedInv (ops.foldl stepIssue p) := by
  induction ops with
  | nil =>
    intro p h _
    exact h
  | cons op rest ih =>
    intro p h hall
    rw [List.all_cons, Bool.and_eq_true] at hall
    exact ih _ (stepIssue_preserves p op hall.1 h) hall.2

/-- C1, amended: after add(id, ...), the slot at id.slot_index has
next_generation equal to id.generation + 1 reduced modulo 2^32 — the
source assigns unconditionally rather than taking the max with the old
counter — and, across any sequence of generate_unique_id and add calls
from the empty list, any later id issued by generate_unique_id for the
same slot has strictly greater generation (such sequences never free a
slot, so generate_unique_id issues at most one id per slot). -/
theorem C1_amended_generation :
    (∀ (s : CSL) (id : ServerId) (loc : String) (sm : ServiceMask)
        (rs : Nat),
      (getPair ((s.add id loc sm rs).1.serverList)
          id.indexNumber).nextGenerationNumber
        = u32Mod (id.generationNumber + 1))
    ∧ ∀ ops : List PubOp, ops.all addOrGen = true →
        ((runIssued ops).2).Pairwise
          (fun a b => a.indexNumber = b.indexNumber →
            a.generationNumber < b.generationNumber) := by
  constructor
  · intro s id loc sm rs
    rw [add_serverList_eq]
    rw [getPair_set_self _ _ _ (lt_length_resizeTo _ _)]
  · intro ops hall
    have h := foldl_stepIssue_inv ops (CSL.empty, [])
      ⟨List.Pairwise.nil, by intro a ha; cases ha⟩ hall
    exact h.1.imp (fun hab heq => absurd heq hab)

/-- Witness for C1 at a concrete add and a concrete two-issue trace. -/
theorem C1_amended_generation_witness :
    (getPair (((CSL.empty).add ⟨1, 5⟩ "tcp:f" ServiceMask.empty
        0).1.serverList) 1).nextGenerationNumber = u32Mod (5 + 1)
    ∧ ((runIssued [PubOp.opGenerateUniqueId,
        PubOp.opGenerateUniqueId]).2).Pairwise
        (fun a b => a.indexNumber = b.indexNumber →
          a.generationNumber < b.generationNumber) :=
  ⟨(C1_amended_generation).1 CSL.empty ⟨1, 5⟩ "tcp:f" ServiceMask.empty 0,
   (C1_amended_generation).2
     [PubOp.opGenerateUniqueId, PubOp.opGenerateUniqueId] (by decide)⟩

/-! Claim C2: the cached counts match a scan after every public call. -/

/-- The combined data invariant carried through call sequences: cached
counts match a scan, and no stored entry is DOWN. -/
def cslInv (s : CSL) : Prop := countInv s ∧ noDownInv s

theorem upMasterCount_resizeTo (l : List GenerationNumberEntryPair)
    (n : Nat) : upMasterCount (resizeTo l n) = upMasterCount l := by
  unfold upMasterCount resizeTo
  exact countP_append_replicate_false _ _ _ _ rfl

theorem upBackupCount_resizeTo (l : List GenerationNumberEntryPair)
    (n : Nat) : upBackupCount (resizeTo l n) = upBackupCount l := by
  unfold upBackupCount resizeTo
  exact countP_append_replicate_false _ _ _ _ rfl

theorem upMasterCount_set (l : List GenerationNumberEntryPair) (i : Nat)
    (x : GenerationNumberEntryPair) (h : i < l.length) :
    upMasterCount (l.set i x) + (if upMasterP (getPair l i) then 1 else 0)
      = upMasterCount l + (if upMasterP x then 1 else 0) :=
  countP_set_balance upMasterP l i x emptyPair h

theorem upBackupCount_set (l : List GenerationNumberEntryPair) (i : Nat)
    (x : GenerationNumberEntryPair) (h : i < l.length) :
    upBackupCount (l.set i x) + (if upBackupP (getPair l i) then 1 else 0)
      = upBackupCount l + (if upBackupP x then 1 else 0) :=
  countP_set_balance upBackupP l i x emptyPair h

theorem upMasterP_none (p : GenerationNumberEntryPair)
    (h : p.entry = none) : upMasterP p = false := by
  unfold upMasterP
  rw [h]

theorem upBackupP_none (p : GenerationNumberEntryPair)
    (h : p.entry = none) : upBackupP p = false := by
  unfold upBackupP
  rw [h]

theorem cslInv_commitUpdate (s : CSL) (h : cslInv s) :
    cslInv s.commitUpdate := by
  refine ⟨⟨?_, ?_⟩, ?_⟩
  · rw [commitUpdate_numberOfMasters, commitUpdate_serverList]
    exact h.1.1
  · rw [commitUpdate_numberOfBackups, commitUpdate_serverList]
    exact h.1.2
  · intro i e he
    rw [commitUpdate_serverList] at he
    exact h.2 i e he

theorem cslInv_empty : cslInv CSL.empty := by
  refine ⟨⟨rfl, rfl⟩, ?_⟩
  intro i e he
  rw [getPair_of_ge _ _ (by simp [CSL.empty])] at he
  exact absurd he (by simp [emptyPair])

theorem upMasterP_added (id : ServerId) (loc : String) (sm : ServiceMask)
    (rs g : Nat) :
    upMasterP ⟨g, some (addedEntry id loc sm rs)⟩ = sm.hasMaster := by
  unfold upMasterP addedEntry Entry.ofServer
  by_cases hb : sm.hasBackup <;> simp [hb]

theorem upBackupP_added (id : ServerId) (loc : String) (sm : ServiceMask)
    (rs g : Nat) :
    upBackupP ⟨g, some (addedEntry id loc sm rs)⟩ = sm.hasBackup := by
  unfold upBackupP addedEntry Entry.ofServer
  by_cases hb : sm.hasBackup <;> simp [hb]

theorem upMasterP_pre (s : CSL) (id : ServerId)
    (hpre : addPre s id = true) :
    upMasterP (getPair (resizeTo s.serverList (id.indexNumber + 1))
      id.indexNumber) = false := by
  by_cases hlt : id.indexNumber < s.serverList.length
  · rw [getPair_resizeTo_lt _ _ _ hlt]
    unfold addPre at hpre
    unfold upMasterP
    cases hE : (getPair s.serverList id.indexNumber).entry with
    | none => rfl
    | some e =>
      rw [hE] at hpre
      have hsv : e.services = ServiceMask.empty := by simpa using hpre
      simp [hsv, ServiceMask.empty]
  · rw [getPair_resizeTo_ge _ _ _ (by omega)]
    rfl

theorem upBackupP_pre (s : CSL) (id : ServerId)
    (hpre : addPre s id = true) :
    upBackupP (getPair (resizeTo s.serverList (id.indexNumber + 1))
      id.indexNumber) = false := by
  by_cases hlt : id.indexNumber < s.serverList.length
  · rw [getPair_resizeTo_lt _ _ _ hlt]
    unfold addPre at hpre
    unfold upBackupP
    cases hE : (getPair s.serverList id.indexNumber).entry with
    | none => rfl
    | some e =>
      rw [hE] at hpre
      have hsv : e.services = ServiceMask.empty := by simpa using hpre
      simp [hsv, ServiceMask.empty]
  · rw [getPair_resizeTo_ge _ _ _ (by omega)]
    rfl

theorem addedEntry_status (id : ServerId) (loc : String)
    (sm : ServiceMask) (rs : Nat) :
    (addedEntry id loc sm rs).status = ServerStatus.UP := by
  unfold addedEntry Entry.ofServer
  by_cases hb : sm.hasBackup <;> simp [hb]

theorem cslInv_add (s : CSL) (id : ServerId) (loc : String)
    (sm : ServiceMask) (rs : Nat) (hpre : addPre s id = true)
    (h : cslInv s) : cslInv ((s.add id loc sm rs).1) := by
  show cslInv (s.addL id loc sm rs).1.commitUpdate
  apply cslInv_commitUpdate
  have hlt := lt_length_resizeTo s.serverList id.indexNumber
  refine ⟨⟨?_, ?_⟩, ?_⟩
  · show (if sm.hasMaster then s.numberOfMasters + 1 else s.numberOfMasters)
      = upMasterCount ((s.addL id loc sm rs).1.serverList)
    rw [addL_serverList_eq]
    have hbal := upMasterCount_set
      (resizeTo s.serverList (id.indexNumber + 1)) id.indexNumber
      ⟨u32Mod (id.generationNumber + 1), some (addedEntry id loc sm rs)⟩
      hlt
    rw [upMasterP_pre s id hpre, upMasterP_added] at hbal
    have hc := h.1.1
    rw [upMasterCount_resizeTo] at hbal
    by_cases hm : sm.hasMaster <;> simp [hm] at hbal ⊢ <;> omega
  · show (if sm.hasBackup then s.numberOfBackups + 1 else s.numberOfBackups)
      = upBackupCount ((s.addL id loc sm rs).1.serverList)
    rw [addL_serverList_eq]
    have hbal := upBackupCount_set
      (resizeTo s.serverList (id.indexNumber + 1)) id.indexNumber
      ⟨u32Mod (id.generationNumber + 1), some (addedEntry id loc sm rs)⟩
      hlt
    rw [upBackupP_pre s id hpre, upBackupP_added] at hbal
    have hc := h.1.2
    rw [upBackupCount_resizeTo] at hbal
    by_cases hm : sm.hasBackup <;> simp [hm] at hbal ⊢ <;> omega
  · intro i e he
    rw [addL_serverList_eq] at he
    by_cases hij : i = id.indexNumber
    · subst hij
      rw [getPair_set_self _ _ _ hlt] at he
      injection he with he'
      rw [← he', addedEntry_status]
      intro hc
      cases hc
    · rw [getPair_set_ne _ _ _ _ hij] at he
      by_cases hil : i < s.serverList.length
      · rw [getPair_resizeTo_lt _ _ _ hil] at he
        exact h.2 i e he
      · rw [getPair_resizeTo_ge _ _ _ (by omega)] at he
        exact absurd he (by simp [emptyPair])

theorem cslInv_genId (s : CSL) (h : cslInv s) :
    cslInv ((s.generateUniqueId).2) := by
  have hlt := lt_length_resizeTo s.serverList (firstFreeFrom s.serverList 1)
  have hfree := genId_free_slot s
  refine ⟨⟨?_, ?_⟩, ?_⟩
  · show s.numberOfMasters = upMasterCount ((s.generateUniqueId).2.serverList)
    rw [genId_serverList_eq]
    have hbal := upMasterCount_set
      (resizeTo s.serverList (firstFreeFrom s.serverList 1 + 1))
      (firstFreeFrom s.serverList 1)
      ⟨u32Mod ((getPair (resizeTo s.serverList
          (firstFreeFrom s.serverList 1 + 1))
          (firstFreeFrom s.serverList 1)).nextGenerationNumber + 1),
        some (Entry.ofServer (s.generateUniqueId).1 "" ServiceMask.empty)⟩
      hlt
    rw [upMasterP_none _ hfree] at hbal
    have hnew : upMasterP
        ⟨u32Mod ((getPair (resizeTo s.serverList
            (firstFreeFrom s.serverList 1 + 1))
            (firstFreeFrom s.serverList 1)).nextGenerationNumber + 1),
          some (Entry.ofServer (s.generateUniqueId).1 ""
            ServiceMask.empty)⟩ = false := rfl
    rw [hnew, upMasterCount_resizeTo] at hbal
    have hc := h.1.1
    simp at hbal
    omega
  · show s.numberOfBackups = upBackupCount ((s.generateUniqueId).2.serverList)
    rw [genId_serverList_eq]
    have hbal := upBackupCount_set
      (resizeTo s.serverList (firstFreeFrom s.serverList 1 + 1))
      (firstFreeFrom s.serverList 1)
      ⟨u32Mod ((getPair (resizeTo s.serverList
          (firstFreeFrom s.serverList 1 + 1))
          (firstFreeFrom s.serverList 1)).nextGenerationNumber + 1),
        some (Entry.ofServer (s.generateUniqueId).1 "" ServiceMask.empty)⟩
      hlt
    rw [upBackupP_none _ hfree] at hbal
    have hnew : upBackupP
        ⟨u32Mod ((getPair (resizeTo s.serverList
            (firstFreeFrom s.serverList 1 + 1))
            (firstFreeFrom s.serverList 1)).nextGenerationNumber + 1),
          some (Entry.ofServer (s.generateUniqueId).1 ""
            ServiceMask.empty)⟩ = false := rfl
    rw [hnew, upBackupCount_resizeTo] at hbal
    have hc := h.1.2
    simp at hbal
    omega
  · intro i e he
    rw [genId_serverList_eq] at he
    by_cases hij : i = firstFreeFrom s.serverList 1
    · subst hij
      rw [getPair_set_self _ _ _ hlt] at he
      injection he with he'
      rw [← he']
      intro hc
      cases hc
    · rw [getPair_set_ne _ _ _ _ hij] at he
      by_cases hil : i < s.serverList.length
      · rw [getPair_resizeTo_lt _ _ _ hil] at he
        exact h.2 i e he
      · rw [getPair_resizeTo_ge _ _ _ (by omega)] at he
        exact absurd he (by simp [emptyPair])

theorem crashedState_serverList (s : CSL) (id : ServerId) (e : Entry) :
    (crashedState s id e).serverList
      = setEntryAt s.serverList id.indexNumber
          (some { e with status := ServerStatus.CRASHED }) := rfl

theorem cslInv_crashedState (s : CSL) (id : ServerId) (e : Entry)
    (hE : (getPair s.serverList id.indexNumber).entry = some e)
    (hlen : id.indexNumber < s.serverList.length)
    (hup : e.status = ServerStatus.UP) (h : cslInv s) :
    cslInv (crashedState s id e) := by
  refine ⟨⟨?_, ?_⟩, ?_⟩
  · show (if e.isMaster then s.numberOfMasters - 1 else s.numberOfMasters)
      = upMasterCount ((crashedState s id e).serverList)
    rw [crashedState_serverList]
    unfold setEntryAt
    have hbal := upMasterCount_set s.serverList id.indexNumber
      ⟨(getPair s.serverList id.indexNumber).nextGenerationNumber,
        some { e with status := ServerStatus.CRASHED }⟩ hlen
    have hPold : upMasterP (getPair s.serverList id.indexNumber)
        = e.isMaster := by
      unfold upMasterP
      rw [hE]
      simp [hup, Entry.isMaster]
    have hPnew : upMasterP
        ⟨(getPair s.serverList id.indexNumber).nextGenerationNumber,
          some { e with status := ServerStatus.CRASHED }⟩ = false := by
      unfold upMasterP
      simp
    rw [hPold, hPnew] at hbal
    have hc := h.1.1
    by_cases hm : e.isMaster <;> simp [hm] at hbal ⊢ <;> omega
  · show (if e.isBackup then s.numberOfBackups - 1 else s.numberOfBackups)
      = upBackupCount ((crashedState s id e).serverList)
    rw [crashedState_serverList]
    unfold setEntryAt
    have hbal := upBackupCount_set s.serverList id.indexNumber
      ⟨(getPair s.serverList id.indexNumber).nextGenerationNumber,
        some { e with status := ServerStatus.CRASHED }⟩ hlen
    have hPold : upBackupP (getPair s.serverList id.indexNumber)
        = e.isBackup := by
      unfold upBackupP
      rw [hE]
      simp [hup, Entry.isBackup]
    have hPnew : upBackupP
        ⟨(getPair s.serverList id.indexNumber).nextGenerationNumber,
          some { e with status := ServerStatus.CRASHED }⟩ = false := by
      unfold upBackupP
      simp
    rw [hPold, hPnew] at hbal
    have hc := h.1.2
    by_cases hm : e.isBackup <;> simp [hm] at hbal ⊢ <;> omega
  · intro i f hf
    rw [crashedState_serverList] at hf
    unfold setEntryAt at hf
    by_cases hij : i = id.indexNumber
    · subst hij
      rw [getPair_set_self _ _ _ hlen] at hf
      injection hf with hf'
      rw [← hf']
      intro hc
      cases hc
    · rw [getPair_set_ne _ _ _ _ hij] at hf
      exact h.2 i f hf

theorem cslInv_destroy (s : CSL) (id : ServerId) (e : Entry)
    (hE : (getPair s.serverList id.indexNumber).entry = some e)
    (hlen : id.indexNumber < s.serverList.length)
    (hnup : ¬ e.status = ServerStatus.UP) (h : cslInv s)
    (upd : List ProtoEntry) :
    cslInv { s with
      serverList := setEntryAt s.serverList id.indexNumber none,
      update := upd } := by
  refine ⟨⟨?_, ?_⟩, ?_⟩
  · show s.numberOfMasters
      = upMasterCount (setEntryAt s.serverList id.indexNumber none)
    unfold setEntryAt
    have hbal := upMasterCount_set s.serverList id.indexNumber
      ⟨(getPair s.serverList id.indexNumber).nextGenerationNumber, none⟩
      hlen
    have hPold : upMasterP (getPair s.serverList id.indexNumber)
        = false := by
      unfold upMasterP
      rw [hE]
      simp [hnup]
    rw [hPold, upMasterP_none _ rfl] at hbal
    have hc := h.1.1
    simp at hbal
    omega
  · show s.numberOfBackups
      = upBackupCount (setEntryAt s.serverList id.indexNumber none)
    unfold setEntryAt
    have hbal := upBackupCount_set s.serverList id.indexNumber
      ⟨(getPair s.serverList id.indexNumber).nextGenerationNumber, none⟩
      hlen
    have hPold : upBackupP (getPair s.serverList id.indexNumber)
        = false := by
      unfold upBackupP
      rw [hE]
      simp [hnup]
    rw [hPold, upBackupP_none _ rfl] at hbal
    have hc := h.1.2
    simp at hbal
    omega
  · intro i f hf
    have hf' : (getPair (setEntryAt s.serverList id.indexNumber none)
        i).entry = some f := hf
    unfold setEntryAt at hf'
    by_cases hij : i = id.indexNumber
    · subst hij
      rw [getPair_set_self _ _ _ hlen] at hf'
      exact absurd hf' (by simp)
    · rw [getPair_set_ne _ _ _ _ hij] at hf'
      exact h.2 i f hf'

theorem cslInv_crashedL (s : CSL) (id : ServerId) (s1 : CSL)
    (ev : List (Entry × ServerChangeEvent))
    (hc : s.crashedL id = Except.ok (s1, ev)) (h : cslInv s) :
    cslInv s1 := by
  cases hl : s.lookupEntry id with
  | none =>
    rw [show s.crashedL id = Except.error () from by
      simp only [CSL.crashedL, hl]] at hc
    exact absurd hc (by simp)
  | some e =>
    obtain ⟨hE, hid, hlen⟩ := lookupEntry_elim s id e hl
    by_cases hcr : e.status = ServerStatus.CRASHED
    · have hnop : s.crashedL id = Except.ok (s, []) := by
        simp only [CSL.crashedL, hl]
        rw [if_pos hcr]
      rw [hnop] at hc
      injection hc with hc'
      injection hc' with h1 h2
      rw [← h1]
      exact h
    · have hup : e.status = ServerStatus.UP := by
        have hnd := h.2 id.indexNumber e hE
        cases hst : e.status with
        | UP => rfl
        | CRASHED => exact absurd hst hcr
        | DOWN => exact absurd hst hnd
      have hc1 := crashedL_up_eq s id e hl hcr
      rw [hc1] at hc
      injection hc with hc'
      injection hc' with h1 h2
      rw [← h1]
      exact cslInv_crashedState s id e hE hlen hup h

theorem cslInv_removeL (s : CSL) (id : ServerId) (s1 : CSL)
    (ev : List (Entry × ServerChangeEvent))
    (hr : s.removeL id = Except.ok (s1, ev)) (h : cslInv s) :
    cslInv s1 := by
  cases hl : s.lookupEntry id with
  | none =>
    rw [show s.removeL id = Except.error () from by
      simp only [CSL.removeL, hl]] at hr
    exact absurd hr (by simp)
  | some e =>
    obtain ⟨hE, hid, hlen⟩ := lookupEntry_elim s id e hl
    by_cases hcr : e.status = ServerStatus.CRASHED
    · have hnop : s.crashedL id = Except.ok (s, []) := by
        simp only [CSL.crashedL, hl]
        rw [if_pos hcr]
      have hrem : s.removeL id = Except.ok
          ({ s with
              serverList := setEntryAt s.serverList id.indexNumber none,
              update := s.update
                ++ [({ e with
                      status := ServerStatus.DOWN }).serializeEntry] },
            [({ e with status := ServerStatus.DOWN },
              ServerChangeEvent.SERVER_REMOVED)]) := by
        simp only [CSL.removeL, hl, hnop]
        rfl
      rw [hrem] at hr
      injection hr with hr'
      injection hr' with h1 h2
      rw [← h1]
      exact cslInv_destroy s id e hE hlen
        (by rw [hcr]; intro hc; cases hc) h _
    · have hup : e.status = ServerStatus.UP := by
        have hnd := h.2 id.indexNumber e hE
        cases hst : e.status with
        | UP => rfl
        | CRASHED => exact absurd hst hcr
        | DOWN => exact absurd hst hnd
      have hc1 := crashedL_up_eq s id e hl hcr
      have hl1 := lookupEntry_crashedState s id e hid hlen
      have hrem : s.removeL id = Except.ok
          ({ crashedState s id e with
              serverList := setEntryAt (crashedState s id e).serverList
                id.indexNumber none,
              update := (crashedState s id e).update
                ++ [({ e with
                      status := ServerStatus.DOWN }).serializeEntry] },
            [({ e with status := ServerStatus.CRASHED },
              ServerChangeEvent.SERVER_CRASHED),
             ({ e with status := ServerStatus.DOWN },
              ServerChangeEvent.SERVER_REMOVED)]) := by
        simp only [CSL.removeL, hl, hc1, hl1]
        rfl
      rw [hrem] at hr
      injection hr with hr'
      injection hr' with h1 h2
      rw [← h1]
      have hmid := cslInv_crashedState s id e hE hlen hup h
      have hE1 : (getPair (crashedState s id e).serverList
          id.indexNumber).entry
          = some { e with status := ServerStatus.CRASHED } := by
        rw [crashedState_serverList]
        unfold setEntryAt
        rw [getPair_set_self _ _ _ hlen]
      have hlen1 : id.indexNumber
          < (crashedState s id e).serverList.length := by
        rw [crashedState_serverList]
        unfold setEntryAt
        rw [List.length_set]
        exact hlen
      exact cslInv_destroy (crashedState s id e) id _ hE1 hlen1
        (by intro hc; cases hc) hmid _

theorem cslInv_setEntry_same (s : CSL) (id : ServerId) (e e' : Entry)
    (hE : (getPair s.serverList id.indexNumber).entry = some e)
    (hlen : id.indexNumber < s.serverList.length)
    (hst : e'.status = e.status) (hsv : e'.services = e.services)
    (h : cslInv s) :
    cslInv { s with
      serverList := setEntryAt s.serverList id.indexNumber (some e') }
    := by
  refine ⟨⟨?_, ?_⟩, ?_⟩
  · show s.numberOfMasters
      = upMasterCount (setEntryAt s.serverList id.indexNumber (some e'))
    unfold setEntryAt
    have hbal := upMasterCount_set s.serverList id.indexNumber
      ⟨(getPair s.serverList id.indexNumber).nextGenerationNumber,
        some e'⟩ hlen
    have hPeq : upMasterP
        ⟨(getPair s.serverList id.indexNumber).nextGenerationNumber,
          some e'⟩
        = upMasterP (getPair s.serverList id.indexNumber) := by
      unfold upMasterP
      rw [hE]
      simp [hst, hsv]
    rw [hPeq] at hbal
    have hc := h.1.1
    omega
  · show s.numberOfBackups
      = upBackupCount (setEntryAt s.serverList id.indexNumber (some e'))
    unfold setEntryAt
    have hbal := upBackupCount_set s.serverList id.indexNumber
      ⟨(getPair s.serverList id.indexNumber).nextGenerationNumber,
        some e'⟩ hlen
    have hPeq : upBackupP
        ⟨(getPair s.serverList id.indexNumber).nextGenerationNumber,
          some e'⟩
        = upBackupP (getPair s.serverList id.indexNumber) := by
      unfold upBackupP
      rw [hE]
      simp [hst, hsv]
    rw [hPeq] at hbal
    have hc := h.1.2
    omega
  · intro i f hf
    have hf' : (getPair (setEntryAt s.serverList id.indexNumber
        (some e')) i).entry = some f := hf
    unfold setEntryAt at hf'
    by_cases hij : i = id.indexNumber
    · subst hij
      rw [getPair_set_self _ _ _ hlen] at hf'
      injection hf' with hf''
      rw [← hf'', hst]
      exact h.2 id.indexNumber e hE
    · rw [getPair_set_ne _ _ _ _ hij] at hf'
      exact h.2 i f hf'

theorem cslInv_setMinOpenSegmentId (s : CSL) (id : ServerId) (v : Nat)
    (s' : CSL) (hok : s.setMinOpenSegmentId id v = Except.ok s')
    (h : cslInv s) : cslInv s' := by
  cases hl : s.lookupEntry id with
  | none =>
    rw [show s.setMinOpenSegmentId id v = Except.error () from by
      simp only [CSL.setMinOpenSegmentId, hl]] at hok
    exact absurd hok (by simp)
  | some e =>
    obtain ⟨hE, hid, hlen⟩ := lookupEntry_elim s id e hl
    by_cases hv : e.minOpenSegmentId < v
    · have heq : s.setMinOpenSegmentId id v = Except.ok { s with
          serverList := setEntryAt s.serverList id.indexNumber
            (some { e with minOpenSegmentId := v }) } := by
        simp only [CSL.setMinOpenSegmentId, hl]
        rw [if_pos hv]
      rw [heq] at hok
      injection hok with h1
      rw [← h1]
      exact cslInv_setEntry_same s id e _ hE hlen rfl rfl h
    · have heq : s.setMinOpenSegmentId id v = Except.ok s := by
        simp only [CSL.setMinOpenSegmentId, hl]
        rw [if_neg hv]
      rw [heq] at hok
      injection hok with h1
      rw [← h1]
      exact h

theorem cslInv_setReplicationId (s : CSL) (id : ServerId) (v : Nat)
    (s' : CSL) (hok : s.setReplicationId id v = Except.ok s')
    (h : cslInv s) : cslInv s' := by
  cases hl : s.lookupEntry id with
  | none =>
    rw [show s.setReplicationId id v = Except.error () from by
      simp only [CSL.setReplicationId, hl]] at hok
    exact absurd hok (by simp)
  | some e =>
    obtain ⟨hE, hid, hlen⟩ := lookupEntry_elim s id e hl
    have heq : s.setReplicationId id v = Except.ok { s with
        serverList := setEntryAt s.serverList id.indexNumber
          (some { e with replicationId := v }) } := by
      simp only [CSL.setReplicationId, hl]
    rw [heq] at hok
    injection hok with h1
    rw [← h1]
    exact cslInv_setEntry_same s id e _ hE hlen rfl rfl h

theorem cslInv_addServerInfoLogId (s : CSL) (id : ServerId) (v : Nat)
    (s' : CSL) (hok : s.addServerInfoLogId id v = Except.ok s')
    (h : cslInv s) : cslInv s' := by
  cases hl : s.lookupEntry id with
  | none =>
    rw [show s.addServerInfoLogId id v = Except.error () from by
      simp only [CSL.addServerInfoLogId, hl]] at hok
    exact absurd hok (by simp)
  | some e =>
    obtain ⟨hE, hid, hlen⟩ := lookupEntry_elim s id e hl
    have heq : s.addServerInfoLogId id v = Except.ok { s with
        serverList := setEntryAt s.serverList id.indexNumber
          (some { e with serverInfoLogId := v }) } := by
      simp only [CSL.addServerInfoLogId, hl]
    rw [heq] at hok
    injection hok with h1
    rw [← h1]
    exact cslInv_setEntry_same s id e _ hE hlen rfl rfl h

theorem cslInv_addServerUpdateLogId (s : CSL) (id : ServerId) (v : Nat)
    (s' : CSL) (hok : s.addServerUpdateLogId id v = Except.ok s')
    (h : cslInv s) : cslInv s' := by
  cases hl : s.lookupEntry id with
  | none =>
    rw [show s.addServerUpdateLogId id v = Except.error () from by
      simp only [CSL.addServerUpdateLogId, hl]] at hok
    exact absurd hok (by simp)
  | some e =>
    obtain ⟨hE, hid, hlen⟩ := lookupEntry_elim s id e hl
    have heq : s.addServerUpdateLogId id v = Except.ok { s with
        serverList := setEntryAt s.serverList id.indexNumber
          (some { e with serverUpdateLogId := v }) } := by
      simp only [CSL.addServerUpdateLogId, hl]
    rw [heq] at hok
    injection hok with h1
    rw [← h1]
    exact cslInv_setEntry_same s id e _ hE hlen rfl rfl h

theorem cslInv_stepOp (s : CSL) (op : PubOp)
    (hpre : (match op with
      | PubOp.opAdd id _ _ _ => addPre s id
      | _ => true) = true)
    (h : cslInv s) : cslInv (stepOp s op) := by
  cases op with
  | opAdd id loc sm rs => exact cslInv_add s id loc sm rs hpre h
  | opCrashed id =>
    show cslInv (match s.crashed id with
      | Except.ok p => p.1
      | Except.error _ => s)
    cases hcl : s.crashedL id with
    | error err =>
      have heq : s.crashed id = Except.error err := by
        unfold CSL.crashed
        rw [hcl]
        rfl
      rw [heq]
      exact h
    | ok q =>
      have heq : s.crashed id = Except.ok (q.1.commitUpdate, q.2) := by
        unfold CSL.crashed
        rw [hcl]
        rfl
      rw [heq]
      exact cslInv_commitUpdate _
        (cslInv_crashedL s id q.1 q.2 (by rw [hcl]) h)
  | opRemove id =>
    show cslInv (match s.remove id with
      | Except.ok p => p.1
      | Except.error _ => s)
    cases hcl : s.removeL id with
    | error err =>
      have heq : s.remove id = Except.error err := by
        unfold CSL.remove
        rw [hcl]
        rfl
      rw [heq]
      exact h
    | ok q =>
      have heq : s.remove id = Except.ok (q.1.commitUpdate, q.2) := by
        unfold CSL.remove
        rw [hcl]
        rfl
      rw [heq]
      exact cslInv_commitUpdate _
        (cslInv_removeL s id q.1 q.2 (by rw [hcl]) h)
  | opGenerateUniqueId => exact cslInv_genId s h
  | opSetMinOpenSegmentId id v =>
    show cslInv (match s.setMinOpenSegmentId id v with
      | Except.ok s' => s'
      | Except.error _ => s)
    cases hcl : s.setMinOpenSegmentId id v with
    | error err => exact h
    | ok s' => exact cslInv_setMinOpenSegmentId s id v s' hcl h
  | opSetReplicationId id v =>
    show cslInv (match s.setReplicationId id v with
      | Except.ok s' => s'
      | Except.error _ => s)
    cases hcl : s.setReplicationId id v with
    | error err => exact h
    | ok s' => exact cslInv_setReplicationId s id v s' hcl h
  | opAddServerInfoLogId id v =>
    show cslInv (match s.addServerInfoLogId id v with
      | Except.ok s' => s'
      | Except.error _ => s)
    cases hcl : s.addServerInfoLogId id v with
    | error err => exact h
    | ok s' => exact cslInv_addServerInfoLogId s id v s' hcl h
  | opAddServerUpdateLogId id v =>
    show cslInv (match s.addServerUpdateLogId id v with
      | Except.ok s' => s'
      | Except.error _ => s)
    cases hcl : s.addServerUpdateLogId id v with
    | error err => exact h
    | ok s' => exact cslInv_addServerUpdateLogId s id v s' hcl h

theorem cslInv_runOps (ops : List PubOp) :
    ∀ s, cslInv s → validFrom s ops = true → cslInv (runOps s ops) := by
  induction ops with
  | nil =>
    intro s h _
    exact h
  | cons op rest ih =>
    intro s h hv
    simp only [validFrom, Bool.and_eq_true] at hv
    show cslInv (runOps (stepOp s op) rest)
    exact ih _ (cslInv_stepOp s op hv.1 h) hv.2

theorem validFrom_append (l1 l2 : List PubOp) :
    ∀ s, validFrom s (l1 ++ l2)
      = (validFrom s l1 && validFrom (runOps s l1) l2) := by
  induction l1 with
  | nil =>
    intro s
    simp [validFrom, runOps]
  | cons op rest ih =>
    intro s
    simp only [List.cons_append, validFrom, List.append_eq]
    rw [ih (stepOp s op), Bool.and_assoc]
    rfl

/-- C2: after every public operation of a valid call sequence from the
empty list — every add respecting its documented precondition that the
target slot is absent, empty, or a placeholder — the cached master count
equals the number of UP entries offering the master service, and
likewise for backups. -/
theorem C2_counts_invariant (ops pre suf : List PubOp)
    (hsplit : ops = pre ++ suf)
    (hvalid : validFrom CSL.empty ops = true) :
    (runOps CSL.empty pre).numberOfMasters
        = upMasterCount (runOps CSL.empty pre).serverList
    ∧ (runOps CSL.empty pre).numberOfBackups
        = upBackupCount (runOps CSL.empty pre).serverList := by
  subst hsplit
  rw [validFrom_append pre suf CSL.empty, Bool.and_eq_true] at hvalid
  exact (cslInv_runOps pre CSL.empty cslInv_empty hvalid.1).1

/-- Witness for C2 on a concrete valid sequence and prefix. -/
theorem C2_counts_invariant_witness :
    (runOps CSL.empty [PubOp.opGenerateUniqueId,
        PubOp.opAdd ⟨1, 0⟩ "tcp:w" ⟨true, true, true, false⟩ 4]).numberOfMasters
      = upMasterCount (runOps CSL.empty [PubOp.opGenerateUniqueId,
          PubOp.opAdd ⟨1, 0⟩ "tcp:w" ⟨true, true, true, false⟩
            4]).serverList
    ∧ (runOps CSL.empty [PubOp.opGenerateUniqueId,
        PubOp.opAdd ⟨1, 0⟩ "tcp:w" ⟨true, true, true, false⟩
          4]).numberOfBackups
      = upBackupCount (runOps CSL.empty [PubOp.opGenerateUniqueId,
          PubOp.opAdd ⟨1, 0⟩ "tcp:w" ⟨true, true, true, false⟩
            4]).serverList :=
  C2_counts_invariant
    [PubOp.opGenerateUniqueId,
      PubOp.opAdd ⟨1, 0⟩ "tcp:w" ⟨true, true, true, false⟩ 4,
      PubOp.opCrashed ⟨1, 0⟩]
    [PubOp.opGenerateUniqueId,
      PubOp.opAdd ⟨1, 0⟩ "tcp:w" ⟨true, true, true, false⟩ 4]
    [PubOp.opCrashed ⟨1, 0⟩]
    rfl (by decide)

end RAMCloud
